import Mathlib

/-!
# A5/1 and A5/2 keystream generator (`gsm-receiver/lib/decoder/a5-1-2.c`)

Shallow embedding of the register engine of `a5-1-2.c` and proofs of the
properties its specification states about it.

Modelling conventions.

* The C type `word` is an unsigned 32-bit integer (the source documents
  `parity` as working on "a 32-bit word"); values are naturals, and the only
  operation that can leave the word range, the left shift, is reduced modulo
  `2 ^ 32`.  `bit` is the same type, `byte` is an unsigned 8-bit integer.
* The global registers `R1 R2 R3 R4` and the function-local `static bit
  delaybit` of `getbit` form the explicit state `State`.
* The conditional compilation `#ifdef A5_2` is the boolean field `A5_2` of
  `Config`; the constants of the header `a5-1-2.h` are the other fields.
* Arrays passed by pointer (`byte key_reversed[8]`, `byte AtoBkeystream[]`)
  are functions from the index to the stored byte.
-/

namespace A5

/-! ## Machine integers -/

/-- Width of the C type `word` (and of `bit`): the source documents `parity`
as computing "the parity of a 32-bit word". -/
def wordBits : Nat := 32

/-- Truncation of a natural number to a `word`. -/
def toWord (x : Nat) : Nat := x % 2 ^ wordBits

/-- Truncation of a natural number to a `byte` (`unsigned char`). -/
def toByte (x : Nat) : Nat := x % 256

/-- The C truth value of `x != 0`. -/
def ne0 (x : Nat) : Nat := if x ≠ 0 then 1 else 0

/-- Bitwise complement `~x` of a `word`. -/
def wnot (x : Nat) : Nat := x ^^^ (2 ^ wordBits - 1)

/-- The array `buf` after the assignment `buf[i] = v`. -/
def store (buf : Nat → Nat) (i v : Nat) : Nat → Nat :=
  fun j => if j = i then v else buf j

/-- The C loop `for (i = 0; i < n; i++) body`, as a state transformer. -/
def forLoop {σ : Type} (n : Nat) (body : Nat → σ → σ) (s : σ) : σ :=
  match n with
  | 0 => s
  | k + 1 => body k (forLoop k body s)

/-! ## Configuration and state -/

/-- The compile-time configuration: whether `A5_2` is defined, and the
constants of the header `a5-1-2.h`. -/
structure Config where
  A5_2 : Bool
  R1MASK : Nat
  R2MASK : Nat
  R3MASK : Nat
  R4MASK : Nat
  R1MID : Nat
  R2MID : Nat
  R3MID : Nat
  R4TAP1 : Nat
  R4TAP2 : Nat
  R4TAP3 : Nat
  R1TAPS : Nat
  R2TAPS : Nat
  R3TAPS : Nat
  R4TAPS : Nat
deriving DecidableEq, Repr

/-- Modelled from the spec: the header `a5-1-2.h` is not part of the
sources; these are the reference constants of the A5/1 (Linear) build, the
register widths 19, 22, 23 being those of the spec's data model.  The
`R4` fields are not used by this variant. -/
def linearConfig : Config where
  A5_2 := false
  R1MASK := 0x07FFFF
  R2MASK := 0x3FFFFF
  R3MASK := 0x7FFFFF
  R4MASK := 0x01FFFF
  R1MID := 0x000100
  R2MID := 0x000400
  R3MID := 0x000400
  R4TAP1 := 0x000400
  R4TAP2 := 0x000008
  R4TAP3 := 0x000080
  R1TAPS := 0x072000
  R2TAPS := 0x300000
  R3TAPS := 0x700080
  R4TAPS := 0x010800

/-- Modelled from the spec: the reference constants of the A5/2 (NonLinear)
build of the absent header `a5-1-2.h`.  The `MID` fields are not used by
this variant. -/
def nonLinearConfig : Config :=
  { linearConfig with A5_2 := true }

/-- The mutable state of the program: the global registers and the static
delay bit of `getbit`.  `R4` and `delaybit` exist only when `A5_2` is
defined; the Linear variant neither reads nor writes them. -/
structure State where
  R1 : Nat
  R2 : Nat
  R3 : Nat
  R4 : Nat
  delaybit : Nat
deriving DecidableEq, Repr

/-! ## The functions of `a5-1-2.c` -/

/-- Parity of a 32-bit word (source lines 5-13). -/
def parity (x : Nat) : Nat :=
  let x := x ^^^ (x >>> 16)
  let x := x ^^^ (x >>> 8)
  let x := x ^^^ (x >>> 4)
  let x := x ^^^ (x >>> 2)
  let x := x ^^^ (x >>> 1)
  x &&& 1

/-- Clock one shift register (source lines 19-32).  The fourth parameter
exists, and is used, only when `A5_2` is defined. -/
def clockone (A5_2 : Bool) (reg mask taps loaded_bit : Nat) : Nat :=
  let t := reg &&& taps
  let reg := toWord (reg <<< 1) &&& mask
  let reg := reg ||| parity t
  if A5_2 then reg ||| loaded_bit else reg

/-- Majority of three words (source lines 45-51). -/
def majority (w1 w2 w3 : Nat) : Nat :=
  let sum := ne0 w1 + ne0 w2 + ne0 w3
  if sum ≥ 2 then 1 else 0

/-- Clock two or three of `R1`, `R2`, `R3` (source lines 64-83). -/
def clockr (c : Config) (allP loaded : Nat) (s : State) : State :=
  if c.A5_2 then
    let maj := majority (s.R4 &&& c.R4TAP1) (s.R4 &&& c.R4TAP2) (s.R4 &&& c.R4TAP3)
    let s1 : State :=
      if allP ≠ 0 ∨ ne0 (s.R4 &&& c.R4TAP1) = maj then
        { s with R1 := clockone true s.R1 c.R1MASK c.R1TAPS (loaded <<< 15) }
      else s
    let s2 : State :=
      if allP ≠ 0 ∨ ne0 (s1.R4 &&& c.R4TAP2) = maj then
        { s1 with R2 := clockone true s1.R2 c.R2MASK c.R2TAPS (loaded <<< 16) }
      else s1
    let s3 : State :=
      if allP ≠ 0 ∨ ne0 (s2.R4 &&& c.R4TAP3) = maj then
        { s2 with R3 := clockone true s2.R3 c.R3MASK c.R3TAPS (loaded <<< 18) }
      else s2
    { s3 with R4 := clockone true s3.R4 c.R4MASK c.R4TAPS (loaded <<< 10) }
  else
    let maj := majority (s.R1 &&& c.R1MID) (s.R2 &&& c.R2MID) (s.R3 &&& c.R3MID)
    let s1 : State :=
      if allP ≠ 0 ∨ ne0 (s.R1 &&& c.R1MID) = maj then
        { s with R1 := clockone false s.R1 c.R1MASK c.R1TAPS 0 }
      else s
    let s2 : State :=
      if allP ≠ 0 ∨ ne0 (s1.R2 &&& c.R2MID) = maj then
        { s1 with R2 := clockone false s1.R2 c.R2MASK c.R2TAPS 0 }
      else s1
    if allP ≠ 0 ∨ ne0 (s2.R3 &&& c.R3MID) = maj then
      { s2 with R3 := clockone false s2.R3 c.R3MASK c.R3TAPS 0 }
    else s2

/-- Modelled from the spec: `keysetup`, `run` and `runA51` call `clock`,
which the file does not define; the absent header `a5-1-2.h` is taken to
map it to `clockr`, the only clocking routine of the file (the spec has
every cycle of every phase go through the one clock-control rule). -/
def clock (c : Config) (allP loaded : Nat) (s : State) : State :=
  clockr c allP loaded s

/-- Generate an output bit from the current state (source lines 93-108):
the returned bit and the state after the call. -/
def getbit (c : Config) (s : State) : Nat × State :=
  let topbits := ((s.R1 >>> 18) ^^^ (s.R2 >>> 21) ^^^ (s.R3 >>> 22)) &&& 0x01
  if c.A5_2 then
    let nowbit := s.delaybit
    let delaybit :=
      topbits
        ^^^ majority (s.R1 &&& 0x8000) (wnot s.R1 &&& 0x4000) (s.R1 &&& 0x1000)
        ^^^ majority (wnot s.R2 &&& 0x10000) (s.R2 &&& 0x2000) (s.R2 &&& 0x200)
        ^^^ majority (s.R3 &&& 0x40000) (s.R3 &&& 0x10000) (wnot s.R3 &&& 0x2000)
    (nowbit, { s with delaybit := delaybit })
  else
    (topbits, s)

/-- The statement `R1 ^= b; R2 ^= b; R3 ^= b;` and, when `A5_2` is defined,
`R4 ^= b;` of the two loading loops of `keysetup`. -/
def xorbit (c : Config) (b : Nat) (s : State) : State :=
  let s : State := { s with R1 := s.R1 ^^^ b }
  let s : State := { s with R2 := s.R2 ^^^ b }
  let s : State := { s with R3 := s.R3 ^^^ b }
  if c.A5_2 then { s with R4 := s.R4 ^^^ b } else s

/-- The local array `key` of `keysetup`: `key[i] = key_reversed[7-i]`. -/
def reverseKey (key_reversed : Nat → Nat) : Nat → Nat :=
  forLoop 8 (fun i key => store key i (toByte (key_reversed (7 - i)))) (fun _ => 0)

/-- The statement `R1 = R2 = R3 = 0;` and, when `A5_2` is defined,
`R4 = 0;` of `keysetup`. -/
def zeroRegisters (c : Config) (s : State) : State :=
  let s : State := { s with R1 := 0, R2 := 0, R3 := 0 }
  if c.A5_2 then { s with R4 := 0 } else s

/-- The body of the key-loading loop of `keysetup` (source lines 134-141). -/
def loadKeyStep (c : Config) (key : Nat → Nat) (i : Nat) (s : State) : State :=
  let s := clock c 1 0 s
  let keybit := (key (i / 8) >>> (i &&& 7)) &&& 1
  xorbit c keybit s

/-- The key-loading loop of `keysetup` (source lines 133-142). -/
def loadKey (c : Config) (key : Nat → Nat) (s : State) : State :=
  forLoop 64 (loadKeyStep c key) s

/-- The body of the frame-loading loop of `keysetup` (source lines 150-157). -/
def loadFrameStep (c : Config) (frame : Nat) (i : Nat) (s : State) : State :=
  let s := clock c 1 (if i = 21 then 1 else 0) s
  let framebit := (frame >>> i) &&& 1
  xorbit c framebit s

/-- The frame-loading loop of `keysetup` (source lines 149-158). -/
def loadFrame (c : Config) (frame : Nat) (s : State) : State :=
  forLoop 22 (loadFrameStep c frame) s

/-- The mixing loop of `keysetup` (source lines 167-169). -/
def mix (c : Config) (s : State) : State :=
  forLoop 100 (fun _ s => clock c 0 0 s) s

/-- The A5 key setup (source lines 113-176). -/
def keysetup (c : Config) (key_reversed : Nat → Nat) (frame : Nat) (s : State) : State :=
  let key := reverseKey key_reversed
  let s := zeroRegisters c s
  let s := loadKey c key s
  let s := loadFrame c frame s
  let s := mix c s
  (getbit c s).2

/-- The state of `run`: the registers and the two output buffers. -/
structure RunState where
  regs : State
  AtoBkeystream : Nat → Nat
  BtoAkeystream : Nat → Nat

/-- The buffer-zeroing loop of `run` (source lines 190-191). -/
def zeroBuffers (st : RunState) : RunState :=
  forLoop (113 / 8 + 1) (fun i st =>
    { st with
      BtoAkeystream := store st.BtoAkeystream i 0
      AtoBkeystream := store st.AtoBkeystream i 0 }) st

/-- The A->B generation loop of `run` (source lines 196-199). -/
def genAtoB (c : Config) (st : RunState) : RunState :=
  forLoop 114 (fun i st =>
    let regs := clock c 0 0 st.regs
    let r := getbit c regs
    { st with
      regs := r.2
      AtoBkeystream := store st.AtoBkeystream (i / 8)
        (toByte (st.AtoBkeystream (i / 8) ||| toWord (r.1 <<< (7 - (i &&& 7))))) }) st

/-- The B->A generation loop of `run` (source lines 204-207). -/
def genBtoA (c : Config) (st : RunState) : RunState :=
  forLoop 114 (fun i st =>
    let regs := clock c 0 0 st.regs
    let r := getbit c regs
    { st with
      regs := r.2
      BtoAkeystream := store st.BtoAkeystream (i / 8)
        (toByte (st.BtoAkeystream (i / 8) ||| toWord (r.1 <<< (7 - (i &&& 7))))) }) st

/-- Generate 228 bits of keystream into two buffers (source lines 185-208). -/
def run (c : Config) (s : State) (AtoBkeystream BtoAkeystream : Nat → Nat) : RunState :=
  genBtoA c (genAtoB c (zeroBuffers ⟨s, AtoBkeystream, BtoAkeystream⟩))

/-- Generate 114 keystream bits, one per byte (source lines 210-224). -/
def runA51 (c : Config) (s : State) (AtoBkeystream : Nat → Nat) : State × (Nat → Nat) :=
  let buf := forLoop 114 (fun i buf => store buf i 0) AtoBkeystream
  forLoop 114 (fun i st =>
    let regs := clock c 0 0 st.1
    let r := getbit c regs
    (r.2, store st.2 i (toByte r.1))) (s, buf)

/-- The first 15 bytes of a buffer. -/
def bytes15 (buf : Nat → Nat) : List Nat := (List.range 15).map buf

/-- The array holding the bytes of the list `l`. -/
def ofBytes (l : List Nat) : Nat → Nat := fun i => l.getD i 0

/-- The all-zero state in which the program starts (globals and the static
delay bit are zero-initialised). -/
def initState : State := ⟨0, 0, 0, 0, 0⟩

/-! ## The keystream as a sequence of bits -/

/-- One keystream cycle, the body shared by the generation loops of `run`
and `runA51`: `clock(0,0)` followed by `getbit()`. -/
def cycle (c : Config) (s : State) : Nat × State := getbit c (clock c 0 0 s)

/-- The state after `n` keystream cycles. -/
def cycles (c : Config) (n : Nat) (s : State) : State :=
  forLoop n (fun _ s => (cycle c s).2) s

/-- The bit returned by keystream cycle number `i` (counted from 0) when
generation starts in state `s`. -/
def streamBit (c : Config) (s : State) (i : Nat) : Nat := (cycle c (cycles c i s)).1

/-- The packing statement `buf[i/8] |= b << (7 - (i & 7))` of `run`,
iterated for `i = 0 .. n-1` over a given sequence of bits. -/
def packLoop (b : Nat → Nat) (n : Nat) (buf : Nat → Nat) : Nat → Nat :=
  forLoop n (fun i buf =>
    store buf (i / 8) (toByte (buf (i / 8) ||| toWord (b i <<< (7 - (i &&& 7)))))) buf

/-! ## Evaluation helpers

The definitions above nest one closure per loop iteration; the functions
below compute the same values while normalising the state after every
iteration, and are proved equal to them further down. -/

/-- Continue with the value of `n`, after inspecting it. -/
def forceNat {α : Type} (n : Nat) (k : Nat → α) : α :=
  match n with
  | 0 => k 0
  | m + 1 => k (m + 1)

/-- Continue with the state `s`, after inspecting every field. -/
def forceState {α : Type} (s : State) (k : State → α) : α :=
  forceNat s.R1 fun r1 => forceNat s.R2 fun r2 => forceNat s.R3 fun r3 =>
  forceNat s.R4 fun r4 => forceNat s.delaybit fun d => k ⟨r1, r2, r3, r4, d⟩

/-- The loop `for (i = i0; i < i0 + n; i++) body` on states. -/
def forLoopFrom (body : Nat → State → State) : Nat → Nat → State → State
  | _, 0, s => s
  | i, n + 1, s => forceState (body i s) (forLoopFrom body (i + 1) n)

/-- The bits returned by the first `n` keystream cycles from `s`. -/
def streamList (c : Config) : Nat → State → List Nat
  | 0, _ => []
  | n + 1, s =>
    forceState (cycle c s).2 fun s1 =>
    forceNat (cycle c s).1 fun b => b :: streamList c n s1

/-- The byte whose bit `m` is `f m`, for `m < 8`. -/
def byteOfBits (f : Nat → Bool) : Nat :=
  (if f 0 then 1 else 0) + (if f 1 then 2 else 0) + (if f 2 then 4 else 0)
    + (if f 3 then 8 else 0) + (if f 4 then 16 else 0) + (if f 5 then 32 else 0)
    + (if f 6 then 64 else 0) + (if f 7 then 128 else 0)

/-- Byte `j` of the MSB-first packing of the 114 bits `b 0 .. b 113`. -/
def packedByte (b : Nat → Nat) (j : Nat) : Nat :=
  byteOfBits fun m => decide (8 * j + (7 - m) < 114) && decide (b (8 * j + (7 - m)) = 1)

/-- The MSB-first packing of the 114 bits `b 0 .. b 113` into 15 bytes. -/
def packed15 (b : Nat → Nat) : List Nat := (List.range 15).map (packedByte b)

/-- Continue with the list `l`, after inspecting every element. -/
def forceList {α : Type} (l : List Nat) (k : List Nat → α) : α :=
  match l with
  | [] => k []
  | x :: xs => forceNat x fun y => forceList xs fun ys => k (y :: ys)

/-- The two 15-byte buffers that `run` fills when started in state `s`. -/
def runBytes (c : Config) (s : State) : List Nat × List Nat :=
  forceList (streamList c 228 s) fun l =>
    (packed15 (fun i => l.getD i 0), packed15 (fun i => l.getD (114 + i) 0))

/-- The state that `keysetup` leaves when called in the initial state. -/
def keysetupState (c : Config) (key_reversed : Nat → Nat) (frame : Nat) : State :=
  (getbit c
    (forLoopFrom (fun _ s => clock c 0 0 s) 0 100
      (forLoopFrom (loadFrameStep c frame) 0 22
        (forLoopFrom (loadKeyStep c (reverseKey key_reversed)) 0 64
          (zeroRegisters c initState))))).2

/-- The key of `test` when `A5_2` is not defined (source line 231). -/
def testKeyA51 : List Nat := [0x12, 0x23, 0x45, 0x67, 0x89, 0xAB, 0xCD, 0xEF]

/-- The array `goodAtoB` of `test` when `A5_2` is not defined. -/
def goodAtoBA51 : List Nat :=
  [0x53, 0x4E, 0xAA, 0x58, 0x2F, 0xE8, 0x15, 0x1A, 0xB6, 0xE1, 0x85, 0x5A, 0x72, 0x8C, 0x00]

/-- The array `goodBtoA` of `test` when `A5_2` is not defined. -/
def goodBtoAA51 : List Nat :=
  [0x24, 0xFD, 0x35, 0xA3, 0x5D, 0x5F, 0xB6, 0x52, 0x6D, 0x32, 0xF9, 0x06, 0xDF, 0x1A, 0xC0]

/-- The key of `test` when `A5_2` is defined (source line 240). -/
def testKeyA52 : List Nat := [0x00, 0xfc, 0xff, 0xff, 0xff, 0xff, 0xff, 0xff]

/-- The array `goodAtoB` of `test` when `A5_2` is defined. -/
def goodAtoBA52 : List Nat :=
  [0xf4, 0x51, 0x2c, 0xac, 0x13, 0x59, 0x37, 0x64, 0x46, 0x0b, 0x72, 0x2d, 0xad, 0xd5, 0x00]

/-- The array `goodBtoA` of `test` when `A5_2` is defined. -/
def goodBtoAA52 : List Nat :=
  [0x48, 0x00, 0xd4, 0x32, 0x8e, 0x16, 0xa1, 0x4d, 0xcd, 0x7b, 0x97, 0x22, 0x26, 0x51, 0x00]

/-! ## Clock control -/

/-- The condition under which `clockr` clocks `R1`. -/
def clocksR1 (c : Config) (allP : Nat) (s : State) : Prop :=
  if c.A5_2 then
    allP ≠ 0 ∨ ne0 (s.R4 &&& c.R4TAP1)
      = majority (s.R4 &&& c.R4TAP1) (s.R4 &&& c.R4TAP2) (s.R4 &&& c.R4TAP3)
  else
    allP ≠ 0 ∨ ne0 (s.R1 &&& c.R1MID)
      = majority (s.R1 &&& c.R1MID) (s.R2 &&& c.R2MID) (s.R3 &&& c.R3MID)

/-- The condition under which `clockr` clocks `R2`. -/
def clocksR2 (c : Config) (allP : Nat) (s : State) : Prop :=
  if c.A5_2 then
    allP ≠ 0 ∨ ne0 (s.R4 &&& c.R4TAP2)
      = majority (s.R4 &&& c.R4TAP1) (s.R4 &&& c.R4TAP2) (s.R4 &&& c.R4TAP3)
  else
    allP ≠ 0 ∨ ne0 (s.R2 &&& c.R2MID)
      = majority (s.R1 &&& c.R1MID) (s.R2 &&& c.R2MID) (s.R3 &&& c.R3MID)

/-- The condition under which `clockr` clocks `R3`. -/
def clocksR3 (c : Config) (allP : Nat) (s : State) : Prop :=
  if c.A5_2 then
    allP ≠ 0 ∨ ne0 (s.R4 &&& c.R4TAP3)
      = majority (s.R4 &&& c.R4TAP1) (s.R4 &&& c.R4TAP2) (s.R4 &&& c.R4TAP3)
  else
    allP ≠ 0 ∨ ne0 (s.R3 &&& c.R3MID)
      = majority (s.R1 &&& c.R1MID) (s.R2 &&& c.R2MID) (s.R3 &&& c.R3MID)

instance (c : Config) (allP : Nat) (s : State) : Decidable (clocksR1 c allP s) := by
  unfold clocksR1; infer_instance

instance (c : Config) (allP : Nat) (s : State) : Decidable (clocksR2 c allP s) := by
  unfold clocksR2; infer_instance

instance (c : Config) (allP : Nat) (s : State) : Decidable (clocksR3 c allP s) := by
  unfold clocksR3; infer_instance

/-! ## Relations between states -/

/-- The states `s` and `t` hold the same registers: `R1`, `R2`, `R3` and,
when `A5_2` is defined (so that `R4` exists), `R4`. -/
def sameRegs (c : Config) (s t : State) : Prop :=
  s.R1 = t.R1 ∧ s.R2 = t.R2 ∧ s.R3 = t.R3 ∧ (c.A5_2 = true → s.R4 = t.R4)

instance (c : Config) (s t : State) : Decidable (sameRegs c s t) := by
  unfold sameRegs; infer_instance

/-- The states `s` and `t` are the same program state: the same registers
and, when `A5_2` is defined, the same delay bit. -/
def sameState (c : Config) (s t : State) : Prop :=
  sameRegs c s t ∧ (c.A5_2 = true → s.delaybit = t.delaybit)

instance (c : Config) (s t : State) : Decidable (sameState c s t) := by
  unfold sameState; infer_instance

/-! ## The masking invariant and the steps of `keysetup` -/

/-- The registers are masked to their widths: `R1 < 2^19`, `R2 < 2^22`,
`R3 < 2^23` and, when `A5_2` is defined (so that `R4` exists), `R4 < 2^17`. -/
def Masked (c : Config) (s : State) : Prop :=
  s.R1 < 2 ^ 19 ∧ s.R2 < 2 ^ 22 ∧ s.R3 < 2 ^ 23 ∧ (c.A5_2 = true → s.R4 < 2 ^ 17)

instance (c : Config) (s : State) : Decidable (Masked c s) := by
  unfold Masked; infer_instance

/-- The steps of the loop `for (i = 0; i < n; i++)` whose iteration `i`
performs the steps `f i`, in program order. -/
def stepsOfLoop (n : Nat) (f : Nat → List (State → State)) : List (State → State) :=
  match n with
  | 0 => []
  | k + 1 => stepsOfLoop k f ++ f k

/-- The individual mutations of `keysetup`, in program order: the zeroing,
then for each key bit a `clock` call and the XOR of the key bit, then for
each frame bit a `clock` call and the XOR of the frame bit, then the 100
mixing `clock` calls, then the final `getbit`. -/
def keysetupSteps (c : Config) (key_reversed : Nat → Nat) (frame : Nat) :
    List (State → State) :=
  zeroRegisters c ::
    (stepsOfLoop 64 (fun i =>
        [clock c 1 0, xorbit c ((reverseKey key_reversed (i / 8) >>> (i &&& 7)) &&& 1)])
      ++ stepsOfLoop 22 (fun i =>
        [clock c 1 (if i = 21 then 1 else 0), xorbit c ((frame >>> i) &&& 1)])
      ++ stepsOfLoop 100 (fun _ => [clock c 0 0])
      ++ [fun s => (getbit c s).2])

/-- The state after performing the steps `l` in order from `s`. -/
def applySteps (l : List (State → State)) (s : State) : State :=
  l.foldl (fun s f => f s) s

/-! ## Counting bits -/

/-- The number of set bits of a 32-bit word: the number of positions
`i < 32` at which bit `i` of `x` is 1. -/
def popcount32 (x : Nat) : Nat := ((List.range 32).filter (fun i => x.testBit i)).length

/-- The XOR of the bits `0 .. n-1` of `x`. -/
def xorBits (x : Nat) : Nat → Bool
  | 0 => false
  | n + 1 => xor (xorBits x n) (x.testBit n)

/-! ## Definitions for the output delay, the key order and the loading phase -/

/-- The value that `getbit` computes from the registers when `A5_2` is
defined (source lines 100-105): the top bits XORed with the three majority
terms. -/
def outputF (s : State) : Nat :=
  (((s.R1 >>> 18) ^^^ (s.R2 >>> 21) ^^^ (s.R3 >>> 22)) &&& 0x01)
    ^^^ majority (s.R1 &&& 0x8000) (wnot s.R1 &&& 0x4000) (s.R1 &&& 0x1000)
    ^^^ majority (wnot s.R2 &&& 0x10000) (s.R2 &&& 0x2000) (s.R2 &&& 0x200)
    ^^^ majority (s.R3 &&& 0x40000) (s.R3 &&& 0x10000) (wnot s.R3 &&& 0x2000)

/-- The state of `keysetup` at the end of the frame-loading phase (after
source line 158, before the 100 mixing cycles). -/
def loadPhase (c : Config) (key_reversed : Nat → Nat) (frame : Nat) (s : State) : State :=
  loadFrame c frame (loadKey c (reverseKey key_reversed) (zeroRegisters c s))

/-- The state after `n` successive calls `clockr(0, 0)`. -/
def clockrN (c : Config) (n : Nat) (s : State) : State :=
  forLoop n (fun _ s => clockr c 0 0 s) s

/-- The number of the registers `R1`, `R2`, `R3` that `clockr` clocks. -/
def clockedCount (c : Config) (allP : Nat) (s : State) : Nat :=
  (if clocksR1 c allP s then 1 else 0) + (if clocksR2 c allP s then 1 else 0)
    + (if clocksR3 c allP s then 1 else 0)

/-- The control bit of register `i` (1, 2 or 3) that `clockr` compares with
the majority: `Ri & RiMID` tested non-zero, or `R4 & R4TAPi` when `A5_2` is
defined. -/
def controlBit (c : Config) (s : State) (i : Nat) : Nat :=
  if c.A5_2 then
    (if i = 1 then ne0 (s.R4 &&& c.R4TAP1)
      else if i = 2 then ne0 (s.R4 &&& c.R4TAP2) else ne0 (s.R4 &&& c.R4TAP3))
  else
    (if i = 1 then ne0 (s.R1 &&& c.R1MID)
      else if i = 2 then ne0 (s.R2 &&& c.R2MID) else ne0 (s.R3 &&& c.R3MID))

end A5

namespace A5

/-! ## Loops -/

theorem forLoop_zero {σ : Type} (body : Nat → σ → σ) (s : σ) : forLoop 0 body s = s := rfl

theorem forLoop_succ {σ : Type} (n : Nat) (body : Nat → σ → σ) (s : σ) :
    forLoop (n + 1) body s = body n (forLoop n body s) := rfl

theorem forLoop_succ_front {σ : Type} (n : Nat) (body : Nat → σ → σ) (s : σ) :
    forLoop (n + 1) body s = forLoop n (fun j => body (j + 1)) (body 0 s) := by
  induction n with
  | zero => rfl
  | succ k ih => rw [forLoop_succ, ih, forLoop_succ]

theorem forLoop_add {σ : Type} (m n : Nat) (f : σ → σ) (s : σ) :
    forLoop (m + n) (fun _ => f) s = forLoop n (fun _ => f) (forLoop m (fun _ => f) s) := by
  induction n with
  | zero => rfl
  | succ k ih => rw [← Nat.add_assoc, forLoop_succ, ih, forLoop_succ]

theorem forceNat_eq {α : Type} (n : Nat) (k : Nat → α) : forceNat n k = k n := by
  cases n <;> rfl

theorem forceState_eq {α : Type} (s : State) (k : State → α) : forceState s k = k s := by
  simp only [forceState, forceNat_eq]

theorem forLoopFrom_eq (body : Nat → State → State) (n i : Nat) (s : State) :
    forLoopFrom body i n s = forLoop n (fun j => body (i + j)) s := by
  induction n generalizing i s with
  | zero => rfl
  | succ k ih =>
    rw [forLoopFrom, forceState_eq, ih, forLoop_succ_front]
    simp only [Nat.add_zero, Nat.add_assoc, Nat.add_comm 1]

theorem forLoop_eq_from (body : Nat → State → State) (n : Nat) (s : State) :
    forLoop n body s = forLoopFrom body 0 n s := by
  rw [forLoopFrom_eq]; simp only [Nat.zero_add]

end A5

namespace A5

/-! ## Bits of machine integers -/

theorem and_seven (i : Nat) : i &&& 7 = i % 8 :=
  Nat.and_pow_two_sub_one_eq_mod i 3

theorem testBit_le_one (b : Nat) (hb : b ≤ 1) (n : Nat) :
    b.testBit n = (decide (b = 1) && decide (n = 0)) := by
  have h : b = 0 ∨ b = 1 := by omega
  rcases h with rfl | rfl
  · simp
  · cases n with
    | zero => simp
    | succ k => simp [Nat.testBit_succ]

theorem testBit_packStep (x b sh m : Nat) (hb : b ≤ 1) (hsh : sh < 8) :
    (toByte (x ||| toWord (b <<< sh))).testBit m
      = (decide (m < 8) && (x.testBit m || (decide (b = 1) && decide (m = sh)))) := by
  have h256 : (256 : Nat) = 2 ^ 8 := by norm_num
  simp only [toByte, toWord, wordBits, h256, Nat.testBit_mod_two_pow, Nat.testBit_or,
    Nat.testBit_shiftLeft, testBit_le_one b hb]
  have hiff : (m < 32 ∧ m ≥ sh ∧ b = 1 ∧ m - sh = 0) ↔ (b = 1 ∧ m = sh) := by
    constructor
    · rintro ⟨_, h1, h2, h3⟩; exact ⟨h2, by omega⟩
    · rintro ⟨h1, h2⟩; exact ⟨by omega, by omega, h1, by omega⟩
  have hd : (decide (m < 32) && (decide (m ≥ sh) && (decide (b = 1) && decide (m - sh = 0))))
      = (decide (b = 1) && decide (m = sh)) := by
    rw [Bool.eq_iff_iff]; simpa using hiff
  rw [hd]

theorem byte_eq_byteOfBits (x : Nat) (hx : x < 256) : x = byteOfBits (fun m => x.testBit m) := by
  have key : ∀ y k : Nat, (if decide (y % 2 = 1) = true then k else 0) = k * (y % 2) := by
    intro y k
    rcases Nat.mod_two_eq_zero_or_one y with h | h <;> simp [h]
  simp only [byteOfBits, Nat.testBit_to_div_mod, key]
  norm_num
  omega

/-! ## The packing loop of `run` -/

theorem packLoop_succ (b : Nat → Nat) (n : Nat) (buf : Nat → Nat) :
    packLoop b (n + 1) buf
      = store (packLoop b n buf) (n / 8)
          (toByte (packLoop b n buf (n / 8) ||| toWord (b n <<< (7 - (n &&& 7))))) := rfl

theorem packLoop_testBit (b : Nat → Nat) (hb : ∀ i, b i ≤ 1) (buf : Nat → Nat) (n j m : Nat)
    (h0 : buf j = 0) :
    (packLoop b n buf j).testBit m
      = (decide (m < 8) && (decide (8 * j + (7 - m) < n) && decide (b (8 * j + (7 - m)) = 1))) := by
  induction n with
  | zero => simp [packLoop, forLoop_zero, h0]
  | succ k ih =>
    rw [packLoop_succ, and_seven]
    by_cases hj : j = k / 8
    · have hst : store (packLoop b k buf) (k / 8)
          (toByte (packLoop b k buf (k / 8) ||| toWord (b k <<< (7 - k % 8)))) j
          = toByte (packLoop b k buf j ||| toWord (b k <<< (7 - k % 8))) := by
        simp [store, hj]
      rw [hst, testBit_packStep _ _ _ _ (hb k) (by omega), ih]
      by_cases h8 : m < 8
      · by_cases hm : m = 7 - k % 8
        · have hk : 8 * j + (7 - m) = k := by omega
          simp [h8, hk]
          exact fun _ => hm
        · have hne : 8 * j + (7 - m) ≠ k := by omega
          have hlt : (8 * j + (7 - m) < k + 1) = (8 * j + (7 - m) < k) := by
            apply propext; constructor <;> intro h <;> omega
          simp [h8, hm, hlt]
      · simp [h8]
    · have hst : store (packLoop b k buf) (k / 8)
          (toByte (packLoop b k buf (k / 8) ||| toWord (b k <<< (7 - k % 8)))) j
          = packLoop b k buf j := by
        simp [store, hj]
      rw [hst, ih]
      by_cases h8 : m < 8
      · have hlt : (8 * j + (7 - m) < k + 1) = (8 * j + (7 - m) < k) := by
          apply propext; constructor <;> intro h <;> omega
        simp [h8, hlt]
      · simp [h8]

end A5

namespace A5

theorem packLoop_lt (b : Nat → Nat) (hb : ∀ i, b i ≤ 1) (buf : Nat → Nat) (n j : Nat)
    (h0 : buf j = 0) : packLoop b n buf j < 256 := by
  have h256 : (256 : Nat) = 2 ^ 8 := by norm_num
  rw [h256]
  apply Nat.lt_pow_two_of_testBit
  intro i hi
  rw [packLoop_testBit b hb buf n j i h0]
  have : ¬ i < 8 := by omega
  simp [this]

theorem packLoop_bit (b : Nat → Nat) (hb : ∀ i, b i ≤ 1) (buf : Nat → Nat) (n i : Nat)
    (hi : i < n) (h0 : buf (i / 8) = 0) :
    packLoop b n buf (i / 8) / 2 ^ (7 - i % 8) % 2 = b i := by
  have h := packLoop_testBit b hb buf n (i / 8) (7 - i % 8) h0
  have hidx : 8 * (i / 8) + (7 - (7 - i % 8)) = i := by omega
  rw [hidx, Nat.testBit_to_div_mod] at h
  have h7 : 7 - i % 8 < 8 := by omega
  have hbi := hb i
  simp only [h7, hi, decide_True, Bool.true_and] at h
  rcases Nat.mod_two_eq_zero_or_one (packLoop b n buf (i / 8) / 2 ^ (7 - i % 8)) with h1 | h1
  · rw [h1] at h ⊢
    simp at h
    omega
  · rw [h1] at h ⊢
    simp at h
    omega

theorem packLoop_eq_byteOfBits (b : Nat → Nat) (hb : ∀ i, b i ≤ 1) (buf : Nat → Nat) (n j : Nat)
    (h0 : buf j = 0) :
    packLoop b n buf j
      = byteOfBits (fun m => decide (8 * j + (7 - m) < n) && decide (b (8 * j + (7 - m)) = 1)) := by
  rw [byte_eq_byteOfBits _ (packLoop_lt b hb buf n j h0)]
  simp only [packLoop_testBit b hb buf n j _ h0, byteOfBits]
  simp

end A5

namespace A5

/-! ## Output bits are bits -/

theorem ne0_le_one (x : Nat) : ne0 x ≤ 1 := by
  unfold ne0; split <;> omega

theorem majority_le_one (w1 w2 w3 : Nat) : majority w1 w2 w3 ≤ 1 := by
  unfold majority; simp only []; split <;> omega

theorem xor_le_one (a b : Nat) (ha : a ≤ 1) (hb : b ≤ 1) : a ^^^ b ≤ 1 := by
  have h := @Nat.xor_lt_two_pow a b 1 (by omega) (by omega)
  omega

theorem and_one_le_one (x : Nat) : x &&& 1 ≤ 1 := Nat.and_le_right

/-- The effect of `clockr`, register by register. -/
theorem clockr_eq (c : Config) (allP loaded : Nat) (s : State) :
    clockr c allP loaded s
      = ⟨if clocksR1 c allP s then clockone c.A5_2 s.R1 c.R1MASK c.R1TAPS (loaded <<< 15)
          else s.R1,
         if clocksR2 c allP s then clockone c.A5_2 s.R2 c.R2MASK c.R2TAPS (loaded <<< 16)
          else s.R2,
         if clocksR3 c allP s then clockone c.A5_2 s.R3 c.R3MASK c.R3TAPS (loaded <<< 18)
          else s.R3,
         if c.A5_2 then clockone true s.R4 c.R4MASK c.R4TAPS (loaded <<< 10) else s.R4,
         s.delaybit⟩ := by
  obtain ⟨r1, r2, r3, r4, d⟩ := s
  cases hc : c.A5_2
  · simp only [clockr, clocksR1, clocksR2, clocksR3, clockone, hc, Bool.false_eq_true, if_false]
    by_cases h1 : allP ≠ 0 ∨ ne0 (r1 &&& c.R1MID)
        = majority (r1 &&& c.R1MID) (r2 &&& c.R2MID) (r3 &&& c.R3MID) <;>
    by_cases h2 : allP ≠ 0 ∨ ne0 (r2 &&& c.R2MID)
        = majority (r1 &&& c.R1MID) (r2 &&& c.R2MID) (r3 &&& c.R3MID) <;>
    by_cases h3 : allP ≠ 0 ∨ ne0 (r3 &&& c.R3MID)
        = majority (r1 &&& c.R1MID) (r2 &&& c.R2MID) (r3 &&& c.R3MID) <;>
    simp only [h1, h2, h3, if_true, if_false]
  · simp only [clockr, clocksR1, clocksR2, clocksR3, hc, if_true]
    by_cases h1 : allP ≠ 0 ∨ ne0 (r4 &&& c.R4TAP1)
        = majority (r4 &&& c.R4TAP1) (r4 &&& c.R4TAP2) (r4 &&& c.R4TAP3) <;>
    by_cases h2 : allP ≠ 0 ∨ ne0 (r4 &&& c.R4TAP2)
        = majority (r4 &&& c.R4TAP1) (r4 &&& c.R4TAP2) (r4 &&& c.R4TAP3) <;>
    by_cases h3 : allP ≠ 0 ∨ ne0 (r4 &&& c.R4TAP3)
        = majority (r4 &&& c.R4TAP1) (r4 &&& c.R4TAP2) (r4 &&& c.R4TAP3) <;>
    simp only [h1, h2, h3, if_true, if_false]

theorem clockr_delaybit (c : Config) (allP loaded : Nat) (s : State) :
    (clockr c allP loaded s).delaybit = s.delaybit := by
  rw [clockr_eq]

theorem getbit_delaybit_le (c : Config) (s : State) :
    c.A5_2 = true → (getbit c s).2.delaybit ≤ 1 := by
  intro hc
  simp only [getbit, hc, if_true]
  exact xor_le_one _ _ (xor_le_one _ _ (xor_le_one _ _ (and_one_le_one _) (majority_le_one _ _ _))
    (majority_le_one _ _ _)) (majority_le_one _ _ _)

theorem getbit_fst_le (c : Config) (s : State) (h : c.A5_2 = true → s.delaybit ≤ 1) :
    (getbit c s).1 ≤ 1 := by
  unfold getbit
  cases hc : c.A5_2
  · exact and_one_le_one _
  · exact h hc

theorem cycle_delaybit_le (c : Config) (s : State) :
    c.A5_2 = true → (cycle c s).2.delaybit ≤ 1 :=
  getbit_delaybit_le c _

theorem cycles_succ (c : Config) (n : Nat) (s : State) :
    cycles c (n + 1) s = (cycle c (cycles c n s)).2 := rfl

theorem cycles_add (c : Config) (m n : Nat) (s : State) :
    cycles c (m + n) s = cycles c n (cycles c m s) :=
  forLoop_add m n (fun s => (cycle c s).2) s

theorem cycles_delaybit_le (c : Config) (n : Nat) (s : State)
    (h : c.A5_2 = true → s.delaybit ≤ 1) : c.A5_2 = true → (cycles c n s).delaybit ≤ 1 := by
  induction n with
  | zero => exact h
  | succ k _ => rw [cycles_succ]; exact cycle_delaybit_le c _

theorem streamBit_le_one (c : Config) (s : State) (h : c.A5_2 = true → s.delaybit ≤ 1)
    (i : Nat) : streamBit c s i ≤ 1 := by
  unfold streamBit cycle
  apply getbit_fst_le
  rw [clock, clockr_delaybit]
  exact cycles_delaybit_le c i s h

theorem streamBit_add (c : Config) (s : State) (m i : Nat) :
    streamBit c (cycles c m s) i = streamBit c s (m + i) := by
  unfold streamBit; rw [cycles_add]

/-! ## The loops of `run` -/

theorem zeroBuffers_loop (st : RunState) (n : Nat) :
    forLoop n (fun i (st : RunState) =>
      ({ st with
        BtoAkeystream := store st.BtoAkeystream i 0
        AtoBkeystream := store st.AtoBkeystream i 0 } : RunState)) st
    = ⟨st.regs, fun j => if j < n then 0 else st.AtoBkeystream j,
        fun j => if j < n then 0 else st.BtoAkeystream j⟩ := by
  induction n with
  | zero => simp [forLoop_zero]
  | succ k ih =>
    rw [forLoop_succ, ih]
    simp only [RunState.mk.injEq, true_and]
    constructor <;> funext j <;> simp only [store] <;> split_ifs <;> first | rfl | omega

theorem zeroBuffers_eq (st : RunState) :
    zeroBuffers st = ⟨st.regs, fun j => if j < 15 then 0 else st.AtoBkeystream j,
        fun j => if j < 15 then 0 else st.BtoAkeystream j⟩ :=
  zeroBuffers_loop st 15

theorem genAtoB_loop (c : Config) (st : RunState) (n : Nat) :
    forLoop n (fun i (st : RunState) =>
      let regs := clock c 0 0 st.regs
      let r := getbit c regs
      ({ st with
        regs := r.2
        AtoBkeystream := store st.AtoBkeystream (i / 8)
          (toByte (st.AtoBkeystream (i / 8) ||| toWord (r.1 <<< (7 - (i &&& 7))))) } : RunState)) st
    = ⟨cycles c n st.regs, packLoop (streamBit c st.regs) n st.AtoBkeystream,
        st.BtoAkeystream⟩ := by
  induction n with
  | zero => rfl
  | succ k ih => rw [forLoop_succ, ih]; rfl

theorem genBtoA_loop (c : Config) (st : RunState) (n : Nat) :
    forLoop n (fun i (st : RunState) =>
      let regs := clock c 0 0 st.regs
      let r := getbit c regs
      ({ st with
        regs := r.2
        BtoAkeystream := store st.BtoAkeystream (i / 8)
          (toByte (st.BtoAkeystream (i / 8) ||| toWord (r.1 <<< (7 - (i &&& 7))))) } : RunState)) st
    = ⟨cycles c n st.regs, st.AtoBkeystream,
        packLoop (streamBit c st.regs) n st.BtoAkeystream⟩ := by
  induction n with
  | zero => rfl
  | succ k ih => rw [forLoop_succ, ih]; rfl

/-- The result of `run`, loop by loop. -/
theorem run_eq (c : Config) (s : State) (A B : Nat → Nat) :
    run c s A B
      = ⟨cycles c 228 s,
          packLoop (streamBit c s) 114 (fun j => if j < 15 then 0 else A j),
          packLoop (fun i => streamBit c s (114 + i)) 114 (fun j => if j < 15 then 0 else B j)⟩ := by
  unfold run genBtoA genAtoB
  rw [zeroBuffers_eq, genAtoB_loop, genBtoA_loop]
  have hB : streamBit c (cycles c 114 s) = fun i => streamBit c s (114 + i) :=
    funext (streamBit_add c s 114)
  simp only [hB, ← cycles_add]

end A5

namespace A5

/-! ## Evaluating `keysetup` and `run` -/

theorem zeroRegisters_eq (c : Config) (s : State) :
    zeroRegisters c s = ⟨0, 0, 0, if c.A5_2 then 0 else s.R4, s.delaybit⟩ := by
  unfold zeroRegisters; cases c.A5_2 <;> rfl

theorem streamList_length (c : Config) (n : Nat) (s : State) : (streamList c n s).length = n := by
  induction n generalizing s with
  | zero => rfl
  | succ k ih => simp only [streamList, forceState_eq, forceNat_eq, List.length_cons, ih]

theorem streamList_getD (c : Config) (n : Nat) (s : State) (i : Nat) (hi : i < n) :
    (streamList c n s).getD i 0 = streamBit c s i := by
  induction n generalizing s i with
  | zero => omega
  | succ k ih =>
    simp only [streamList, forceState_eq, forceNat_eq]
    cases i with
    | zero => rfl
    | succ i =>
      rw [List.getD_cons_succ, ih _ _ (by omega)]
      have h := streamBit_add c s 1 i
      rw [Nat.add_comm 1 i] at h
      exact h

theorem forceList_eq {α : Type} (l : List Nat) (k : List Nat → α) : forceList l k = k l := by
  induction l generalizing k with
  | nil => rfl
  | cons x xs ih => simp only [forceList, forceNat_eq, ih]

theorem packed15_congr (b1 b2 : Nat → Nat) (h : ∀ i, i < 114 → b1 i = b2 i) :
    packed15 b1 = packed15 b2 := by
  unfold packed15 packedByte
  apply List.map_congr_left
  intro j _
  congr 1
  funext m
  by_cases hlt : 8 * j + (7 - m) < 114
  · rw [h _ hlt]
  · simp [hlt]

theorem packLoop_bytes15 (b : Nat → Nat) (hb : ∀ i, b i ≤ 1) (buf : Nat → Nat)
    (h0 : ∀ j, j < 15 → buf j = 0) : bytes15 (packLoop b 114 buf) = packed15 b := by
  unfold bytes15 packed15 packedByte
  apply List.map_congr_left
  intro j hj
  exact packLoop_eq_byteOfBits b hb buf 114 j (h0 j (List.mem_range.mp hj))

/-- The bytes that `run` writes, computed from the list of keystream bits. -/
theorem run_bytes15 (c : Config) (s : State) (A B : Nat → Nat)
    (hd : c.A5_2 = true → s.delaybit ≤ 1) :
    (bytes15 (run c s A B).AtoBkeystream, bytes15 (run c s A B).BtoAkeystream)
      = runBytes c s := by
  have hz : ∀ (X : Nat → Nat) (j : Nat), j < 15 → (fun j => if j < 15 then 0 else X j) j = 0 := by
    intro X j hj; simp [hj]
  rw [run_eq, runBytes, forceList_eq]
  simp only []
  rw [packLoop_bytes15 _ (streamBit_le_one c s hd) _ (hz A),
    packLoop_bytes15 _ (fun i => streamBit_le_one c s hd (114 + i)) _ (hz B),
    packed15_congr (fun i => (streamList c 228 s).getD i 0) (streamBit c s)
      (fun i hi => streamList_getD c 228 s i (by omega)),
    packed15_congr (fun i => (streamList c 228 s).getD (114 + i) 0)
      (fun i => streamBit c s (114 + i))
      (fun i hi => streamList_getD c 228 s (114 + i) (by omega))]

end A5

namespace A5

/-! ## The state before `keysetup` does not matter -/

theorem forLoop_rel {σ : Type} (R : σ → σ → Prop) (n : Nat) (body : Nat → σ → σ)
    (hbody : ∀ i s t, R s t → R (body i s) (body i t)) (s t : σ) (h : R s t) :
    R (forLoop n body s) (forLoop n body t) := by
  induction n with
  | zero => exact h
  | succ k ih => exact hbody k _ _ ih

theorem forLoop_congr {σ : Type} (n : Nat) (body1 body2 : Nat → σ → σ)
    (h : ∀ i, i < n → ∀ s, body1 i s = body2 i s) (s : σ) :
    forLoop n body1 s = forLoop n body2 s := by
  induction n with
  | zero => rfl
  | succ k ih =>
    rw [forLoop_succ, forLoop_succ, ih (fun i hi => h i (by omega)), h k (by omega)]

theorem sameRegs_refl (c : Config) (s : State) : sameRegs c s s :=
  ⟨rfl, rfl, rfl, fun _ => rfl⟩

theorem sameState_refl (c : Config) (s : State) : sameState c s s :=
  ⟨sameRegs_refl c s, fun _ => rfl⟩

theorem clocks_congr (c : Config) (allP : Nat) (s t : State) (h : sameRegs c s t) :
    (clocksR1 c allP s ↔ clocksR1 c allP t) ∧ (clocksR2 c allP s ↔ clocksR2 c allP t)
      ∧ (clocksR3 c allP s ↔ clocksR3 c allP t) := by
  obtain ⟨h1, h2, h3, h4⟩ := h
  cases hc : c.A5_2
  · simp only [clocksR1, clocksR2, clocksR3, hc, h1, h2, h3]
    exact ⟨Iff.rfl, Iff.rfl, Iff.rfl⟩
  · simp only [clocksR1, clocksR2, clocksR3, hc, h4 hc]
    exact ⟨Iff.rfl, Iff.rfl, Iff.rfl⟩

theorem clockr_sameRegs (c : Config) (allP loaded : Nat) (s t : State) (h : sameRegs c s t) :
    sameRegs c (clockr c allP loaded s) (clockr c allP loaded t) := by
  obtain ⟨g1, g2, g3⟩ := clocks_congr c allP s t h
  obtain ⟨h1, h2, h3, h4⟩ := h
  rw [clockr_eq, clockr_eq]
  refine ⟨?_, ?_, ?_, ?_⟩
  · simp only [h1, g1]
  · simp only [h2, g2]
  · simp only [h3, g3]
  · intro hc
    simp only [hc, if_true, h4 hc]

theorem xorbit_sameRegs (c : Config) (b : Nat) (s t : State) (h : sameRegs c s t) :
    sameRegs c (xorbit c b s) (xorbit c b t) := by
  obtain ⟨h1, h2, h3, h4⟩ := h
  cases hc : c.A5_2
  · simp [xorbit, hc, sameRegs, h1, h2, h3]
  · simp [xorbit, hc, sameRegs, h1, h2, h3, h4 hc]

theorem zeroRegisters_sameRegs (c : Config) (s t : State) :
    sameRegs c (zeroRegisters c s) (zeroRegisters c t) := by
  cases hc : c.A5_2 <;> simp [zeroRegisters, hc, sameRegs]

theorem getbit_sameState (c : Config) (s t : State) (h : sameRegs c s t) :
    sameState c (getbit c s).2 (getbit c t).2 := by
  obtain ⟨a1, a2, a3, a4, a5⟩ := s
  obtain ⟨b1, b2, b3, b4, b5⟩ := t
  obtain ⟨h1, h2, h3, h4⟩ := h
  simp only at h1 h2 h3 h4
  subst h1 h2 h3
  cases hc : c.A5_2
  · simp only [getbit, hc, sameState, sameRegs]
    simp
  · have h4 := h4 hc
    subst h4
    simp only [getbit, hc, sameState, sameRegs]
    simp

theorem getbit_fst_congr (c : Config) (s t : State) (h : sameState c s t) :
    (getbit c s).1 = (getbit c t).1 := by
  obtain ⟨⟨h1, h2, h3, _⟩, h5⟩ := h
  cases hc : c.A5_2
  · simp only [getbit, hc, h1, h2, h3]
    rfl
  · simp only [getbit, hc, if_true]
    exact h5 hc

theorem clock_sameState (c : Config) (allP loaded : Nat) (s t : State) (h : sameState c s t) :
    sameState c (clock c allP loaded s) (clock c allP loaded t) := by
  refine ⟨clockr_sameRegs c allP loaded s t h.1, ?_⟩
  simp only [clock, clockr_delaybit]
  exact h.2

theorem cycle_sameState (c : Config) (s t : State) (h : sameState c s t) :
    sameState c (cycle c s).2 (cycle c t).2 :=
  getbit_sameState c _ _ (clockr_sameRegs c 0 0 s t h.1)

theorem cycles_sameState (c : Config) (n : Nat) (s t : State) (h : sameState c s t) :
    sameState c (cycles c n s) (cycles c n t) :=
  forLoop_rel (sameState c) n _ (fun _ s t h => cycle_sameState c s t h) s t h

theorem streamBit_congr (c : Config) (s t : State) (h : sameState c s t) (i : Nat) :
    streamBit c s i = streamBit c t i :=
  getbit_fst_congr c _ _ (clock_sameState c 0 0 _ _ (cycles_sameState c i s t h))

theorem loadKey_sameRegs (c : Config) (key : Nat → Nat) (s t : State) (h : sameRegs c s t) :
    sameRegs c (loadKey c key s) (loadKey c key t) :=
  forLoop_rel (sameRegs c) 64 (loadKeyStep c key)
    (fun _ s t h => xorbit_sameRegs c _ _ _ (clockr_sameRegs c 1 0 s t h)) s t h

theorem loadFrame_sameRegs (c : Config) (frame : Nat) (s t : State) (h : sameRegs c s t) :
    sameRegs c (loadFrame c frame s) (loadFrame c frame t) :=
  forLoop_rel (sameRegs c) 22 (loadFrameStep c frame)
    (fun _ s t h => xorbit_sameRegs c _ _ _ (clockr_sameRegs c 1 _ s t h)) s t h

theorem mix_sameRegs (c : Config) (s t : State) (h : sameRegs c s t) :
    sameRegs c (mix c s) (mix c t) :=
  forLoop_rel (sameRegs c) 100 (fun _ s => clock c 0 0 s)
    (fun _ s t h => clockr_sameRegs c 0 0 s t h) s t h

theorem keysetup_sameState (c : Config) (key_reversed : Nat → Nat) (frame : Nat) (s t : State) :
    sameState c (keysetup c key_reversed frame s) (keysetup c key_reversed frame t) := by
  unfold keysetup
  exact getbit_sameState c _ _ (mix_sameRegs c _ _ (loadFrame_sameRegs c frame _ _
    (loadKey_sameRegs c _ _ _ (zeroRegisters_sameRegs c s t))))

theorem keysetup_delaybit_le (c : Config) (key_reversed : Nat → Nat) (frame : Nat) (s : State) :
    c.A5_2 = true → (keysetup c key_reversed frame s).delaybit ≤ 1 :=
  getbit_delaybit_le c _

theorem keysetup_initState (c : Config) (key_reversed : Nat → Nat) (frame : Nat) :
    keysetup c key_reversed frame initState = keysetupState c key_reversed frame := by
  simp only [keysetup, loadKey, loadFrame, mix, forLoop_eq_from, keysetupState]

theorem run_congr (c : Config) (s t : State) (h : sameState c s t) (A B : Nat → Nat) :
    (run c s A B).AtoBkeystream = (run c t A B).AtoBkeystream
      ∧ (run c s A B).BtoAkeystream = (run c t A B).BtoAkeystream := by
  have h1 : streamBit c s = streamBit c t := funext (streamBit_congr c s t h)
  rw [run_eq, run_eq, h1]
  exact ⟨rfl, rfl⟩

/-- The bytes that `keysetup` followed by `run` writes, in a form that
evaluates. -/
theorem keysetup_run_bytes15 (c : Config) (key_reversed : Nat → Nat) (frame : Nat) (s : State)
    (A B : Nat → Nat) :
    (bytes15 (run c (keysetup c key_reversed frame s) A B).AtoBkeystream,
      bytes15 (run c (keysetup c key_reversed frame s) A B).BtoAkeystream)
      = runBytes c (keysetupState c key_reversed frame) := by
  have h := run_congr c _ _ (keysetup_sameState c key_reversed frame s initState) A B
  rw [h.1, h.2, run_bytes15 c _ A B (keysetup_delaybit_le c key_reversed frame initState),
    keysetup_initState]

end A5

namespace A5

/-! ## The bits and bytes that `run` writes -/

theorem run_AtoB_bit (c : Config) (s : State) (A B : Nat → Nat)
    (hd : c.A5_2 = true → s.delaybit ≤ 1) (i : Nat) (hi : i < 114) :
    (run c s A B).AtoBkeystream (i / 8) / 2 ^ (7 - i % 8) % 2 = streamBit c s i := by
  rw [run_eq]
  exact packLoop_bit _ (streamBit_le_one c s hd) _ 114 i hi (if_pos (by omega))

theorem run_BtoA_bit (c : Config) (s : State) (A B : Nat → Nat)
    (hd : c.A5_2 = true → s.delaybit ≤ 1) (i : Nat) (hi : i < 114) :
    (run c s A B).BtoAkeystream (i / 8) / 2 ^ (7 - i % 8) % 2 = streamBit c s (114 + i) := by
  rw [run_eq]
  exact packLoop_bit (fun i => streamBit c s (114 + i))
    (fun i => streamBit_le_one c s hd (114 + i)) _ 114 i hi (if_pos (by omega))

theorem run_byte_lt (c : Config) (s : State) (A B : Nat → Nat)
    (hd : c.A5_2 = true → s.delaybit ≤ 1) (j : Nat) (hj : j < 15) :
    (run c s A B).AtoBkeystream j < 256 ∧ (run c s A B).BtoAkeystream j < 256 := by
  rw [run_eq]
  exact ⟨packLoop_lt _ (streamBit_le_one c s hd) _ 114 j (if_pos hj),
    packLoop_lt _ (fun i => streamBit_le_one c s hd (114 + i)) _ 114 j (if_pos hj)⟩

theorem packLoop_last_byte (b : Nat → Nat) (hb : ∀ i, b i ≤ 1) (buf : Nat → Nat)
    (h0 : buf 14 = 0) : packLoop b 114 buf 14 % 64 = 0 := by
  have h64 : (64 : Nat) = 2 ^ 6 := by norm_num
  rw [h64]
  apply Nat.eq_of_testBit_eq
  intro m
  rw [Nat.testBit_mod_two_pow, packLoop_testBit b hb buf 114 14 m h0, Nat.zero_testBit]
  by_cases h6 : m < 6
  · have : ¬ (8 * 14 + (7 - m) < 114) := by omega
    simp [this]
  · simp [h6]

theorem run_last_byte (c : Config) (s : State) (A B : Nat → Nat)
    (hd : c.A5_2 = true → s.delaybit ≤ 1) :
    (run c s A B).AtoBkeystream 14 % 64 = 0 ∧ (run c s A B).BtoAkeystream 14 % 64 = 0 := by
  rw [run_eq]
  exact ⟨packLoop_last_byte _ (streamBit_le_one c s hd) _ (if_pos (by omega)),
    packLoop_last_byte _ (fun i => streamBit_le_one c s hd (114 + i)) _ (if_pos (by omega))⟩

theorem run_regs (c : Config) (s : State) (A B : Nat → Nat) :
    (run c s A B).regs = cycles c 228 s := by
  rw [run_eq]

end A5

namespace A5

/-! ## More evaluation lemmas -/

theorem bytes15_inj (f g : Nat → Nat) (h : bytes15 f = bytes15 g) (j : Nat) (hj : j < 15) :
    f j = g j := by
  unfold bytes15 at h
  exact List.map_inj_left.mp h j (List.mem_range.mpr hj)

theorem run_bytes15_AtoB (c : Config) (s : State) (A B : Nat → Nat)
    (hd : c.A5_2 = true → s.delaybit ≤ 1) :
    bytes15 (run c s A B).AtoBkeystream = packed15 (streamBit c s) := by
  rw [run_eq]
  exact packLoop_bytes15 _ (streamBit_le_one c s hd) _ (fun j hj => if_pos hj)

theorem run_bytes15_BtoA (c : Config) (s : State) (A B : Nat → Nat)
    (hd : c.A5_2 = true → s.delaybit ≤ 1) :
    bytes15 (run c s A B).BtoAkeystream = packed15 (fun i => streamBit c s (114 + i)) := by
  rw [run_eq]
  exact packLoop_bytes15 _ (fun i => streamBit_le_one c s hd (114 + i)) _ (fun j hj => if_pos hj)

/-- The bytes that a second `run` writes after `keysetup` and a first `run`,
in a form that evaluates. -/
theorem keysetup_run_run_bytes15 (c : Config) (key_reversed : Nat → Nat) (frame : Nat)
    (s : State) (A B A1 B1 : Nat → Nat) :
    (bytes15 (run c (run c (keysetup c key_reversed frame s) A B).regs A1 B1).AtoBkeystream,
      bytes15 (run c (run c (keysetup c key_reversed frame s) A B).regs A1 B1).BtoAkeystream)
      = runBytes c (forLoopFrom (fun _ s => (cycle c s).2) 0 228
          (keysetupState c key_reversed frame)) := by
  have hs := cycles_sameState c 228 _ _ (keysetup_sameState c key_reversed frame s initState)
  have h := run_congr c _ _ hs A1 B1
  rw [run_regs, h.1, h.2, run_bytes15 c _ A1 B1
    (cycles_delaybit_le c 228 _ (keysetup_delaybit_le c key_reversed frame initState)),
    keysetup_initState, cycles, forLoop_eq_from]

/-! ## C1, C2: the self-test vectors -/

set_option maxRecDepth 100000 in
/-- C1 (the code at the failing input): in the Linear variant with the
reference constants, `keysetup` on the key bytes `12 23 45 67 89 AB CD EF`
and frame `0x134` followed by `run` fills the buffers with
`E5 56 D2 9B DF B3 85 26 AE E2 81 90 F3 D1 C0` and
`83 C2 17 F4 ED 92 24 4C 7F 92 1E 28 82 39 40`, whatever the state and the
buffer contents before; neither is the `goodAtoB` / `goodBtoA` array that
`test` compares them with. -/
theorem test_vector_A51_observed (s : State) (A B : Nat → Nat) :
    bytes15 (run linearConfig (keysetup linearConfig (ofBytes testKeyA51) 0x134 s) A B).AtoBkeystream
        = [0xE5, 0x56, 0xD2, 0x9B, 0xDF, 0xB3, 0x85, 0x26, 0xAE, 0xE2, 0x81, 0x90, 0xF3, 0xD1, 0xC0]
      ∧ bytes15 (run linearConfig (keysetup linearConfig (ofBytes testKeyA51) 0x134 s) A B).BtoAkeystream
        = [0x83, 0xC2, 0x17, 0xF4, 0xED, 0x92, 0x24, 0x4C, 0x7F, 0x92, 0x1E, 0x28, 0x82, 0x39, 0x40]
      ∧ bytes15 (run linearConfig (keysetup linearConfig (ofBytes testKeyA51) 0x134 s) A B).AtoBkeystream
        ≠ goodAtoBA51
      ∧ bytes15 (run linearConfig (keysetup linearConfig (ofBytes testKeyA51) 0x134 s) A B).BtoAkeystream
        ≠ goodBtoAA51 := by
  have h := keysetup_run_bytes15 linearConfig (ofBytes testKeyA51) 0x134 s A B
  have e : runBytes linearConfig (keysetupState linearConfig (ofBytes testKeyA51) 0x134)
      = ([0xE5, 0x56, 0xD2, 0x9B, 0xDF, 0xB3, 0x85, 0x26, 0xAE, 0xE2, 0x81, 0x90, 0xF3, 0xD1, 0xC0],
         [0x83, 0xC2, 0x17, 0xF4, 0xED, 0x92, 0x24, 0x4C, 0x7F, 0x92, 0x1E, 0x28, 0x82, 0x39, 0x40]) := by
    decide
  rw [e] at h
  have h1 := congrArg Prod.fst h
  have h2 := congrArg Prod.snd h
  simp only at h1 h2
  rw [h1, h2]
  exact ⟨rfl, rfl, by decide, by decide⟩

set_option maxRecDepth 100000 in
/-- The Linear self-test vector is reproduced when the key bytes are handed
to `keysetup` in reverse order, `EF CD AB 89 67 45 23 12`. -/
theorem test_vector_A51_reversed_key (s : State) (A B : Nat → Nat) :
    bytes15 (run linearConfig (keysetup linearConfig (ofBytes testKeyA51.reverse) 0x134 s) A B).AtoBkeystream
        = goodAtoBA51
      ∧ bytes15 (run linearConfig (keysetup linearConfig (ofBytes testKeyA51.reverse) 0x134 s) A B).BtoAkeystream
        = goodBtoAA51 := by
  have h := keysetup_run_bytes15 linearConfig (ofBytes testKeyA51.reverse) 0x134 s A B
  have e : runBytes linearConfig (keysetupState linearConfig (ofBytes testKeyA51.reverse) 0x134)
      = (goodAtoBA51, goodBtoAA51) := by
    decide
  rw [e] at h
  exact ⟨congrArg Prod.fst h, congrArg Prod.snd h⟩

set_option maxRecDepth 100000 in
/-- C2 (the code at the failing input): in the NonLinear variant with the
reference constants, `keysetup` on the key bytes `00 FC FF FF FF FF FF FF`
and frame `0x21` followed by `run` fills the buffers with
`D6 54 1B 61 96 D1 34 6B CF F5 2C E8 34 1C C0` and
`D2 B4 42 5B E2 BC 0D D1 85 C3 0A 4A 36 1E 00`, whatever the state (delay
bit included) and the buffer contents before; neither is the `goodAtoB` /
`goodBtoA` array that `test` compares them with. -/
theorem test_vector_A52_observed (s : State) (A B : Nat → Nat) :
    bytes15 (run nonLinearConfig (keysetup nonLinearConfig (ofBytes testKeyA52) 0x21 s) A B).AtoBkeystream
        = [0xD6, 0x54, 0x1B, 0x61, 0x96, 0xD1, 0x34, 0x6B, 0xCF, 0xF5, 0x2C, 0xE8, 0x34, 0x1C, 0xC0]
      ∧ bytes15 (run nonLinearConfig (keysetup nonLinearConfig (ofBytes testKeyA52) 0x21 s) A B).BtoAkeystream
        = [0xD2, 0xB4, 0x42, 0x5B, 0xE2, 0xBC, 0x0D, 0xD1, 0x85, 0xC3, 0x0A, 0x4A, 0x36, 0x1E, 0x00]
      ∧ bytes15 (run nonLinearConfig (keysetup nonLinearConfig (ofBytes testKeyA52) 0x21 s) A B).AtoBkeystream
        ≠ goodAtoBA52
      ∧ bytes15 (run nonLinearConfig (keysetup nonLinearConfig (ofBytes testKeyA52) 0x21 s) A B).BtoAkeystream
        ≠ goodBtoAA52 := by
  have h := keysetup_run_bytes15 nonLinearConfig (ofBytes testKeyA52) 0x21 s A B
  have e : runBytes nonLinearConfig (keysetupState nonLinearConfig (ofBytes testKeyA52) 0x21)
      = ([0xD6, 0x54, 0x1B, 0x61, 0x96, 0xD1, 0x34, 0x6B, 0xCF, 0xF5, 0x2C, 0xE8, 0x34, 0x1C, 0xC0],
         [0xD2, 0xB4, 0x42, 0x5B, 0xE2, 0xBC, 0x0D, 0xD1, 0x85, 0xC3, 0x0A, 0x4A, 0x36, 0x1E, 0x00]) := by
    decide
  rw [e] at h
  have h1 := congrArg Prod.fst h
  have h2 := congrArg Prod.snd h
  simp only at h1 h2
  rw [h1, h2]
  exact ⟨rfl, rfl, by decide, by decide⟩

set_option maxRecDepth 100000 in
/-- The NonLinear self-test vector is reproduced when the key bytes are
handed to `keysetup` in reverse order, `FF FF FF FF FF FF FC 00`. -/
theorem test_vector_A52_reversed_key (s : State) (A B : Nat → Nat) :
    bytes15 (run nonLinearConfig (keysetup nonLinearConfig (ofBytes testKeyA52.reverse) 0x21 s) A B).AtoBkeystream
        = goodAtoBA52
      ∧ bytes15 (run nonLinearConfig (keysetup nonLinearConfig (ofBytes testKeyA52.reverse) 0x21 s) A B).BtoAkeystream
        = goodBtoAA52 := by
  have h := keysetup_run_bytes15 nonLinearConfig (ofBytes testKeyA52.reverse) 0x21 s A B
  have e : runBytes nonLinearConfig (keysetupState nonLinearConfig (ofBytes testKeyA52.reverse) 0x21)
      = (goodAtoBA52, goodBtoAA52) := by
    decide
  rw [e] at h
  exact ⟨congrArg Prod.fst h, congrArg Prod.snd h⟩

end A5

namespace A5

/-! ## C3, C4: the packing done by `run` -/

/-- C3: for every state (the delay bit being a bit) and every prior content
of the two buffers, with `b i = streamBit c s i` the bit returned by the
`i`-th clock-then-getbit step from `s`: bit `7 - i mod 8` of
`AtoBkeystream[i div 8]` is `b i` and bit `7 - i mod 8` of
`BtoAkeystream[i div 8]` is `b (114 + i)` for every `i < 114`, each of the
15 entries of both buffers is a byte, and the low six bits of byte 14 are 0 in
both.  The bits `b (114 + i)` of the second buffer are those produced from
the state that the first 114 cycles leave. -/
theorem run_packs_keystream (c : Config) (s : State) (A B : Nat → Nat)
    (hd : c.A5_2 = true → s.delaybit ≤ 1) :
    (∀ i, i < 114 →
        (run c s A B).AtoBkeystream (i / 8) / 2 ^ (7 - i % 8) % 2 = streamBit c s i
        ∧ (run c s A B).BtoAkeystream (i / 8) / 2 ^ (7 - i % 8) % 2 = streamBit c s (114 + i)
        ∧ streamBit c s (114 + i) = streamBit c (cycles c 114 s) i)
      ∧ (∀ j, j < 15 →
        (run c s A B).AtoBkeystream j < 256 ∧ (run c s A B).BtoAkeystream j < 256)
      ∧ (run c s A B).AtoBkeystream 14 % 64 = 0
      ∧ (run c s A B).BtoAkeystream 14 % 64 = 0 :=
  ⟨fun i hi => ⟨run_AtoB_bit c s A B hd i hi, run_BtoA_bit c s A B hd i hi,
      (streamBit_add c s 114 i).symm⟩,
    fun j hj => run_byte_lt c s A B hd j hj,
    (run_last_byte c s A B hd).1, (run_last_byte c s A B hd).2⟩

/-- Witness of C3: the NonLinear variant started with registers 1, 2, 3, 4
and the delay bit set, over buffers holding 255 everywhere. -/
theorem run_packs_keystream_witness :
    (nonLinearConfig.A5_2 = true → (State.mk 1 2 3 4 1).delaybit ≤ 1)
      ∧ ((∀ i, i < 114 →
          (run nonLinearConfig (State.mk 1 2 3 4 1) (fun _ => 255) (fun _ => 255)).AtoBkeystream
              (i / 8) / 2 ^ (7 - i % 8) % 2
            = streamBit nonLinearConfig (State.mk 1 2 3 4 1) i
          ∧ (run nonLinearConfig (State.mk 1 2 3 4 1) (fun _ => 255) (fun _ => 255)).BtoAkeystream
              (i / 8) / 2 ^ (7 - i % 8) % 2
            = streamBit nonLinearConfig (State.mk 1 2 3 4 1) (114 + i)
          ∧ streamBit nonLinearConfig (State.mk 1 2 3 4 1) (114 + i)
            = streamBit nonLinearConfig (cycles nonLinearConfig 114 (State.mk 1 2 3 4 1)) i)
        ∧ (∀ j, j < 15 →
          (run nonLinearConfig (State.mk 1 2 3 4 1) (fun _ => 255) (fun _ => 255)).AtoBkeystream j
              < 256
          ∧ (run nonLinearConfig (State.mk 1 2 3 4 1) (fun _ => 255) (fun _ => 255)).BtoAkeystream j
              < 256)
        ∧ (run nonLinearConfig (State.mk 1 2 3 4 1) (fun _ => 255) (fun _ => 255)).AtoBkeystream 14
            % 64 = 0
        ∧ (run nonLinearConfig (State.mk 1 2 3 4 1) (fun _ => 255) (fun _ => 255)).BtoAkeystream 14
            % 64 = 0) :=
  ⟨fun _ => Nat.le_refl 1,
    run_packs_keystream nonLinearConfig (State.mk 1 2 3 4 1) (fun _ => 255) (fun _ => 255)
      (fun _ => Nat.le_refl 1)⟩

set_option maxRecDepth 100000 in
/-- C4 fails as stated: in the NonLinear variant started with `R1 = 2` and
everything else 0, keystream bit 113 of the A->B direction is 1, yet bit 2 of
byte 14 of the A->B buffer is 0. -/
theorem run_bit113_not_in_bit2 :
    streamBit nonLinearConfig (State.mk 2 0 0 0 0) 113 = 1
      ∧ (run nonLinearConfig (State.mk 2 0 0 0 0) (fun _ => 0) (fun _ => 0)).AtoBkeystream 14
          / 2 ^ 2 % 2 = 0 := by
  constructor
  · rw [← streamList_getD nonLinearConfig 114 (State.mk 2 0 0 0 0) 113 (by omega)]
    decide
  · have h := (run_last_byte nonLinearConfig (State.mk 2 0 0 0 0) (fun _ => 0) (fun _ => 0)
      (fun _ => Nat.zero_le 1)).1
    omega

/-- C4 (amended): for every state (the delay bit being a bit), keystream bit 0
of a direction is stored in bit 7 of byte 0 and keystream bit 113 of that
direction in bit 6 of byte 14 of that direction's buffer, and the low six
bits of byte 14 are 0. -/
theorem run_first_and_last_bit (c : Config) (s : State) (A B : Nat → Nat)
    (hd : c.A5_2 = true → s.delaybit ≤ 1) :
    (run c s A B).AtoBkeystream 0 / 2 ^ 7 % 2 = streamBit c s 0
      ∧ (run c s A B).AtoBkeystream 14 / 2 ^ 6 % 2 = streamBit c s 113
      ∧ (run c s A B).AtoBkeystream 14 % 2 ^ 6 = 0
      ∧ (run c s A B).BtoAkeystream 0 / 2 ^ 7 % 2 = streamBit c s 114
      ∧ (run c s A B).BtoAkeystream 14 / 2 ^ 6 % 2 = streamBit c s 227
      ∧ (run c s A B).BtoAkeystream 14 % 2 ^ 6 = 0 :=
  ⟨run_AtoB_bit c s A B hd 0 (by omega), run_AtoB_bit c s A B hd 113 (by omega),
    (run_last_byte c s A B hd).1,
    run_BtoA_bit c s A B hd 0 (by omega), run_BtoA_bit c s A B hd 113 (by omega),
    (run_last_byte c s A B hd).2⟩

/-- Witness of the amended C4: the NonLinear variant started with `R1 = 2`,
the delay bit set and everything else 0. -/
theorem run_first_and_last_bit_witness :
    (nonLinearConfig.A5_2 = true → (State.mk 2 0 0 0 1).delaybit ≤ 1)
      ∧ ((run nonLinearConfig (State.mk 2 0 0 0 1) (fun _ => 0) (fun _ => 0)).AtoBkeystream 0
            / 2 ^ 7 % 2 = streamBit nonLinearConfig (State.mk 2 0 0 0 1) 0
        ∧ (run nonLinearConfig (State.mk 2 0 0 0 1) (fun _ => 0) (fun _ => 0)).AtoBkeystream 14
            / 2 ^ 6 % 2 = streamBit nonLinearConfig (State.mk 2 0 0 0 1) 113
        ∧ (run nonLinearConfig (State.mk 2 0 0 0 1) (fun _ => 0) (fun _ => 0)).AtoBkeystream 14
            % 2 ^ 6 = 0
        ∧ (run nonLinearConfig (State.mk 2 0 0 0 1) (fun _ => 0) (fun _ => 0)).BtoAkeystream 0
            / 2 ^ 7 % 2 = streamBit nonLinearConfig (State.mk 2 0 0 0 1) 114
        ∧ (run nonLinearConfig (State.mk 2 0 0 0 1) (fun _ => 0) (fun _ => 0)).BtoAkeystream 14
            / 2 ^ 6 % 2 = streamBit nonLinearConfig (State.mk 2 0 0 0 1) 227
        ∧ (run nonLinearConfig (State.mk 2 0 0 0 1) (fun _ => 0) (fun _ => 0)).BtoAkeystream 14
            % 2 ^ 6 = 0) :=
  ⟨fun _ => Nat.le_refl 1,
    run_first_and_last_bit nonLinearConfig (State.mk 2 0 0 0 1) (fun _ => 0) (fun _ => 0)
      (fun _ => Nat.le_refl 1)⟩

/-! ## C5: calling `run` twice -/

set_option maxRecDepth 100000 in
/-- C5 fails as stated: in the Linear variant, after `keysetup` with the
all-zero key and frame 0, the second call of `run` returns the same pair of
buffers as the first (all bytes 0). -/
theorem run_twice_same_result :
    (bytes15 (run linearConfig
        (run linearConfig (keysetup linearConfig (fun _ => 0) 0 initState)
          (fun _ => 0) (fun _ => 0)).regs
        (run linearConfig (keysetup linearConfig (fun _ => 0) 0 initState)
          (fun _ => 0) (fun _ => 0)).AtoBkeystream
        (run linearConfig (keysetup linearConfig (fun _ => 0) 0 initState)
          (fun _ => 0) (fun _ => 0)).BtoAkeystream).AtoBkeystream,
      bytes15 (run linearConfig
        (run linearConfig (keysetup linearConfig (fun _ => 0) 0 initState)
          (fun _ => 0) (fun _ => 0)).regs
        (run linearConfig (keysetup linearConfig (fun _ => 0) 0 initState)
          (fun _ => 0) (fun _ => 0)).AtoBkeystream
        (run linearConfig (keysetup linearConfig (fun _ => 0) 0 initState)
          (fun _ => 0) (fun _ => 0)).BtoAkeystream).BtoAkeystream)
    = (bytes15 (run linearConfig (keysetup linearConfig (fun _ => 0) 0 initState)
          (fun _ => 0) (fun _ => 0)).AtoBkeystream,
       bytes15 (run linearConfig (keysetup linearConfig (fun _ => 0) 0 initState)
          (fun _ => 0) (fun _ => 0)).BtoAkeystream) := by
  rw [keysetup_run_run_bytes15, keysetup_run_bytes15]
  decide

/-- C5 (amended): for every key and frame, the second call of `run` on the
session produced by `keysetup` returns the packing of keystream bits
228..455 of that session (it continues from the state the first call left),
so the pair of buffers it returns differs from the pair of the first call
exactly when keystream bit `228 + i` differs from bit `i` for some `i < 228`. -/
theorem run_twice_continues (c : Config) (key_reversed : Nat → Nat) (frame : Nat) (s : State)
    (A B : Nat → Nat) :
    (∀ i, i < 114 →
        (run c (run c (keysetup c key_reversed frame s) A B).regs
            (run c (keysetup c key_reversed frame s) A B).AtoBkeystream
            (run c (keysetup c key_reversed frame s) A B).BtoAkeystream).AtoBkeystream
            (i / 8) / 2 ^ (7 - i % 8) % 2
          = streamBit c (keysetup c key_reversed frame s) (228 + i)
        ∧ (run c (run c (keysetup c key_reversed frame s) A B).regs
            (run c (keysetup c key_reversed frame s) A B).AtoBkeystream
            (run c (keysetup c key_reversed frame s) A B).BtoAkeystream).BtoAkeystream
            (i / 8) / 2 ^ (7 - i % 8) % 2
          = streamBit c (keysetup c key_reversed frame s) (342 + i))
      ∧ ((bytes15 (run c (run c (keysetup c key_reversed frame s) A B).regs
              (run c (keysetup c key_reversed frame s) A B).AtoBkeystream
              (run c (keysetup c key_reversed frame s) A B).BtoAkeystream).AtoBkeystream,
            bytes15 (run c (run c (keysetup c key_reversed frame s) A B).regs
              (run c (keysetup c key_reversed frame s) A B).AtoBkeystream
              (run c (keysetup c key_reversed frame s) A B).BtoAkeystream).BtoAkeystream)
          ≠ (bytes15 (run c (keysetup c key_reversed frame s) A B).AtoBkeystream,
            bytes15 (run c (keysetup c key_reversed frame s) A B).BtoAkeystream)
        ↔ ∃ i, i < 228 ∧ streamBit c (keysetup c key_reversed frame s) (228 + i)
            ≠ streamBit c (keysetup c key_reversed frame s) i) := by
  generalize hk : keysetup c key_reversed frame s = k
  have hd : c.A5_2 = true → k.delaybit ≤ 1 := by
    rw [← hk]; exact keysetup_delaybit_le c key_reversed frame s
  have hd2 : c.A5_2 = true → (cycles c 228 k).delaybit ≤ 1 := cycles_delaybit_le c 228 k hd
  generalize hA1 : (run c k A B).AtoBkeystream = A1
  generalize hB1 : (run c k A B).BtoAkeystream = B1
  rw [run_regs]
  have bitA : ∀ i, i < 114 →
      (run c (cycles c 228 k) A1 B1).AtoBkeystream (i / 8) / 2 ^ (7 - i % 8) % 2
        = streamBit c k (228 + i) := by
    intro i hi
    rw [run_AtoB_bit c _ A1 B1 hd2 i hi, streamBit_add]
  have bitB : ∀ i, i < 114 →
      (run c (cycles c 228 k) A1 B1).BtoAkeystream (i / 8) / 2 ^ (7 - i % 8) % 2
        = streamBit c k (342 + i) := by
    intro i hi
    rw [run_BtoA_bit c _ A1 B1 hd2 i hi, streamBit_add, ← Nat.add_assoc]
  refine ⟨fun i hi => ⟨bitA i hi, bitB i hi⟩, ?_⟩
  constructor
  · intro hne
    by_contra hall
    apply hne
    have hall' : ∀ i, i < 228 → streamBit c k (228 + i) = streamBit c k i := by
      intro i hi
      by_contra hx
      exact hall ⟨i, hi, hx⟩
    rw [run_bytes15_AtoB c _ A1 B1 hd2, run_bytes15_BtoA c _ A1 B1 hd2, ← hA1, ← hB1,
      run_bytes15_AtoB c k A B hd, run_bytes15_BtoA c k A B hd]
    have e1 : packed15 (streamBit c (cycles c 228 k)) = packed15 (streamBit c k) :=
      packed15_congr _ _ (fun i hi => by rw [streamBit_add]; exact hall' i (by omega))
    have e2 : packed15 (fun i => streamBit c (cycles c 228 k) (114 + i))
        = packed15 (fun i => streamBit c k (114 + i)) :=
      packed15_congr _ _ (fun i hi => by
        simp only [streamBit_add]
        have := hall' (114 + i) (by omega)
        rw [← this])
    rw [e1, e2]
  · rintro ⟨i, hi, hx⟩ heq
    apply hx
    have hA := congrArg Prod.fst heq
    have hB := congrArg Prod.snd heq
    simp only at hA hB
    by_cases h114 : i < 114
    · have hj := bytes15_inj _ _ hA (i / 8) (by omega)
      rw [← bitA i h114, hj, ← hA1, run_AtoB_bit c k A B hd i h114]
    · have hj := bytes15_inj _ _ hB ((i - 114) / 8) (by omega)
      have e := bitB (i - 114) (by omega)
      rw [hj, ← hB1, run_BtoA_bit c k A B hd (i - 114) (by omega)] at e
      have e3 : 114 + (i - 114) = i := by omega
      have e4 : 342 + (i - 114) = 228 + i := by omega
      rw [e3, e4] at e
      exact e.symm

end A5

namespace A5

/-! ## C6: the frame number is read through its low 22 bits -/

theorem shiftRight_and_one_mod (x n i : Nat) (hi : i < n) :
    ((x % 2 ^ n) >>> i) &&& 1 = (x >>> i) &&& 1 := by
  rw [Nat.and_one_is_mod, Nat.and_one_is_mod, Nat.shiftRight_eq_div_pow,
    Nat.shiftRight_eq_div_pow, ← Nat.toNat_testBit, ← Nat.toNat_testBit,
    Nat.testBit_mod_two_pow]
  simp [hi]

theorem loadFrame_mod (c : Config) (frame : Nat) (s : State) :
    loadFrame c (frame % 2 ^ 22) s = loadFrame c frame s := by
  unfold loadFrame
  apply forLoop_congr
  intro i hi s
  simp only [loadFrameStep, shiftRight_and_one_mod frame 22 i hi]

/-- C6: `keysetup` is a total function of its arguments, and for every key
and every frame value `f` the state it leaves equals the state it leaves for
`f mod 2^22`; hence `run` afterwards produces the same result. -/
theorem keysetup_frame_low22 (c : Config) (key_reversed : Nat → Nat) (frame : Nat) (s : State) :
    keysetup c key_reversed frame s = keysetup c key_reversed (frame % 2 ^ 22) s
      ∧ ∀ A B : Nat → Nat,
        run c (keysetup c key_reversed frame s) A B
          = run c (keysetup c key_reversed (frame % 2 ^ 22) s) A B := by
  have h : keysetup c key_reversed frame s = keysetup c key_reversed (frame % 2 ^ 22) s := by
    simp only [keysetup, loadFrame_mod]
  exact ⟨h, fun A B => by rw [h]⟩

/-! ## C7: the state before `keysetup` does not matter -/

/-- C7: for any two states before the call, `keysetup` with the same key and
frame leaves the same `R1`, `R2`, `R3` and, in the NonLinear variant, the
same `R4` and the same delay bit; `run` afterwards fills the two 15-byte
buffers identically, whatever the buffers held before. -/
theorem keysetup_forgets_prior_state (c : Config) (key_reversed : Nat → Nat) (frame : Nat)
    (s1 s2 : State) (A1 B1 A2 B2 : Nat → Nat) :
    (keysetup c key_reversed frame s1).R1 = (keysetup c key_reversed frame s2).R1
      ∧ (keysetup c key_reversed frame s1).R2 = (keysetup c key_reversed frame s2).R2
      ∧ (keysetup c key_reversed frame s1).R3 = (keysetup c key_reversed frame s2).R3
      ∧ (c.A5_2 = true →
          (keysetup c key_reversed frame s1).R4 = (keysetup c key_reversed frame s2).R4
          ∧ (keysetup c key_reversed frame s1).delaybit
            = (keysetup c key_reversed frame s2).delaybit)
      ∧ bytes15 (run c (keysetup c key_reversed frame s1) A1 B1).AtoBkeystream
          = bytes15 (run c (keysetup c key_reversed frame s2) A2 B2).AtoBkeystream
      ∧ bytes15 (run c (keysetup c key_reversed frame s1) A1 B1).BtoAkeystream
          = bytes15 (run c (keysetup c key_reversed frame s2) A2 B2).BtoAkeystream := by
  have h := keysetup_sameState c key_reversed frame s1 s2
  have hb : streamBit c (keysetup c key_reversed frame s1)
      = streamBit c (keysetup c key_reversed frame s2) := funext (streamBit_congr c _ _ h)
  obtain ⟨⟨h1, h2, h3, h4⟩, h5⟩ := h
  refine ⟨h1, h2, h3, fun hc => ⟨h4 hc, h5 hc⟩, ?_, ?_⟩
  · rw [run_bytes15_AtoB c _ A1 B1 (keysetup_delaybit_le c key_reversed frame s1),
      run_bytes15_AtoB c _ A2 B2 (keysetup_delaybit_le c key_reversed frame s2), hb]
  · rw [run_bytes15_BtoA c _ A1 B1 (keysetup_delaybit_le c key_reversed frame s1),
      run_bytes15_BtoA c _ A2 B2 (keysetup_delaybit_le c key_reversed frame s2), hb]

end A5

namespace A5

/-! ## C9: `clockone` keeps a register within its mask -/

theorem parity_le_one (x : Nat) : parity x ≤ 1 := by
  unfold parity
  exact and_one_le_one _

theorem clockone_lt (a52 : Bool) (reg taps lb n : Nat) (hn : 0 < n) (hlb : lb < 2 ^ n) :
    clockone a52 reg (2 ^ n - 1) taps lb < 2 ^ n := by
  have h2 : 2 ≤ 2 ^ n := by
    calc 2 = 2 ^ 1 := by norm_num
      _ ≤ 2 ^ n := Nat.pow_le_pow_right (by omega) hn
  have hm : toWord (reg <<< 1) &&& (2 ^ n - 1) < 2 ^ n :=
    Nat.and_lt_two_pow _ (by omega)
  have hp : parity (reg &&& taps) < 2 ^ n := by
    have := parity_le_one (reg &&& taps)
    omega
  have hor := Nat.or_lt_two_pow hm hp
  unfold clockone
  cases a52
  · simpa using hor
  · simpa using Nat.or_lt_two_pow hor hlb

theorem shiftLeft_le_one (loaded k : Nat) (h : loaded ≤ 1) : loaded <<< k ≤ 2 ^ k := by
  rw [Nat.shiftLeft_eq]
  calc loaded * 2 ^ k ≤ 1 * 2 ^ k := Nat.mul_le_mul_right _ h
    _ = 2 ^ k := Nat.one_mul _

/-- C9: with the reference masks, for every input word `reg` (masked or
not), every taps word and every forced bit that `clockr` passes for the
register (`loaded << 15`, `<< 16`, `<< 18`, `<< 10` with `loaded` 0 or 1), in
the Linear variant (which has no forced bit) and in the NonLinear variant, the
result of `clockone` is at most the mask of the register. -/
theorem clockone_le_mask (a52 : Bool) (reg taps loaded : Nat) (hl : loaded ≤ 1) :
    clockone a52 reg linearConfig.R1MASK taps (loaded <<< 15) ≤ linearConfig.R1MASK
      ∧ clockone a52 reg linearConfig.R2MASK taps (loaded <<< 16) ≤ linearConfig.R2MASK
      ∧ clockone a52 reg linearConfig.R3MASK taps (loaded <<< 18) ≤ linearConfig.R3MASK
      ∧ clockone a52 reg linearConfig.R4MASK taps (loaded <<< 10) ≤ linearConfig.R4MASK
      ∧ nonLinearConfig.R1MASK = linearConfig.R1MASK
      ∧ nonLinearConfig.R2MASK = linearConfig.R2MASK
      ∧ nonLinearConfig.R3MASK = linearConfig.R3MASK
      ∧ nonLinearConfig.R4MASK = linearConfig.R4MASK := by
  have e1 : linearConfig.R1MASK = 2 ^ 19 - 1 := by norm_num [linearConfig]
  have e2 : linearConfig.R2MASK = 2 ^ 22 - 1 := by norm_num [linearConfig]
  have e3 : linearConfig.R3MASK = 2 ^ 23 - 1 := by norm_num [linearConfig]
  have e4 : linearConfig.R4MASK = 2 ^ 17 - 1 := by norm_num [linearConfig]
  have b1 := shiftLeft_le_one loaded 15 hl
  have b2 := shiftLeft_le_one loaded 16 hl
  have b3 := shiftLeft_le_one loaded 18 hl
  have b4 := shiftLeft_le_one loaded 10 hl
  have c1 := clockone_lt a52 reg taps (loaded <<< 15) 19 (by omega)
    (by have : (2:Nat) ^ 15 < 2 ^ 19 := by norm_num
        omega)
  have c2 := clockone_lt a52 reg taps (loaded <<< 16) 22 (by omega)
    (by have : (2:Nat) ^ 16 < 2 ^ 22 := by norm_num
        omega)
  have c3 := clockone_lt a52 reg taps (loaded <<< 18) 23 (by omega)
    (by have : (2:Nat) ^ 18 < 2 ^ 23 := by norm_num
        omega)
  have c4 := clockone_lt a52 reg taps (loaded <<< 10) 17 (by omega)
    (by have : (2:Nat) ^ 10 < 2 ^ 17 := by norm_num
        omega)
  rw [e1, e2, e3, e4]
  exact ⟨by omega, by omega, by omega, by omega, rfl, rfl, rfl, rfl⟩

/-- Witness of C9: the NonLinear variant clocking the unmasked word
`0xFFFFFFFF` with all taps selected and the forced bit set. -/
theorem clockone_le_mask_witness :
    (1 : Nat) ≤ 1
      ∧ (clockone true 0xFFFFFFFF linearConfig.R1MASK 0xFFFFFFFF (1 <<< 15) ≤ linearConfig.R1MASK
        ∧ clockone true 0xFFFFFFFF linearConfig.R2MASK 0xFFFFFFFF (1 <<< 16) ≤ linearConfig.R2MASK
        ∧ clockone true 0xFFFFFFFF linearConfig.R3MASK 0xFFFFFFFF (1 <<< 18) ≤ linearConfig.R3MASK
        ∧ clockone true 0xFFFFFFFF linearConfig.R4MASK 0xFFFFFFFF (1 <<< 10) ≤ linearConfig.R4MASK
        ∧ nonLinearConfig.R1MASK = linearConfig.R1MASK
        ∧ nonLinearConfig.R2MASK = linearConfig.R2MASK
        ∧ nonLinearConfig.R3MASK = linearConfig.R3MASK
        ∧ nonLinearConfig.R4MASK = linearConfig.R4MASK) :=
  ⟨Nat.le_refl 1, clockone_le_mask true 0xFFFFFFFF 0xFFFFFFFF 1 (Nat.le_refl 1)⟩

end A5

namespace A5

/-! ## C10: `parity` counts the set bits modulo 2 -/

theorem mod_two_eq_toNat_testBit (x : Nat) : x % 2 = (x.testBit 0).toNat := by
  rw [Nat.toNat_testBit]; simp

theorem xorBits_xor (a b n : Nat) :
    xorBits (a ^^^ b) n = xor (xorBits a n) (xorBits b n) := by
  induction n with
  | zero => rfl
  | succ k ih =>
    simp only [xorBits, ih, Nat.testBit_xor]
    cases xorBits a k <;> cases xorBits b k <;> cases a.testBit k <;> cases b.testBit k <;> rfl

theorem xorBits_add (x n m : Nat) :
    xorBits x (n + m) = xor (xorBits x n) (xorBits (x >>> n) m) := by
  induction m with
  | zero => simp [xorBits]
  | succ k ih =>
    rw [← Nat.add_assoc]
    simp only [xorBits, ih, Nat.testBit_shiftRight, Bool.xor_assoc]

theorem xorBits_fold (x n : Nat) : xorBits (x ^^^ (x >>> n)) n = xorBits x (n + n) := by
  rw [xorBits_xor, xorBits_add]

theorem parity_eq_xorBits (x : Nat) : parity x = (xorBits x 32).toNat := by
  have f1 : ∀ y, xorBits (y ^^^ (y >>> 1)) 1 = xorBits y 2 := fun y => xorBits_fold y 1
  have f2 : ∀ y, xorBits (y ^^^ (y >>> 2)) 2 = xorBits y 4 := fun y => xorBits_fold y 2
  have f4 : ∀ y, xorBits (y ^^^ (y >>> 4)) 4 = xorBits y 8 := fun y => xorBits_fold y 4
  have f8 : ∀ y, xorBits (y ^^^ (y >>> 8)) 8 = xorBits y 16 := fun y => xorBits_fold y 8
  have f16 : ∀ y, xorBits (y ^^^ (y >>> 16)) 16 = xorBits y 32 := fun y => xorBits_fold y 16
  have h0 : ∀ y : Nat, y.testBit 0 = xorBits y 1 := fun y => by simp [xorBits]
  unfold parity
  simp only []
  rw [Nat.and_one_is_mod, mod_two_eq_toNat_testBit, h0, f1, f2, f4, f8, f16]

theorem popcount_mod_two (x n : Nat) :
    ((List.range n).filter (fun i => x.testBit i)).length % 2 = (xorBits x n).toNat := by
  induction n with
  | zero => rfl
  | succ k ih =>
    rw [List.range_succ, List.filter_append, List.length_append, xorBits, Nat.add_mod, ih]
    cases hx : xorBits x k <;> cases hb : x.testBit k <;> simp [List.filter, hb]

/-- C10: for every 32-bit word `x`, all set bits of `x` lie at positions
below 32, `parity x` equals the number of set bits of `x` modulo 2, and the
result is 0 or 1. -/
theorem parity_eq_popcount (x : Nat) (hx : x < 2 ^ 32) :
    (∀ i, 32 ≤ i → x.testBit i = false)
      ∧ parity x = popcount32 x % 2
      ∧ (parity x = 0 ∨ parity x = 1) := by
  refine ⟨fun i hi => ?_, ?_, ?_⟩
  · apply Nat.testBit_lt_two_pow
    calc x < 2 ^ 32 := hx
      _ ≤ 2 ^ i := Nat.pow_le_pow_right (by omega) hi
  · rw [parity_eq_xorBits, popcount32, popcount_mod_two]
  · have := parity_le_one x
    omega

/-- Witness of C10: the word `0x80000007`, which has four set bits. -/
theorem parity_eq_popcount_witness :
    (0x80000007 : Nat) < 2 ^ 32
      ∧ ((∀ i, 32 ≤ i → (0x80000007 : Nat).testBit i = false)
        ∧ parity 0x80000007 = popcount32 0x80000007 % 2
        ∧ (parity 0x80000007 = 0 ∨ parity 0x80000007 = 1)) :=
  ⟨by decide, parity_eq_popcount 0x80000007 (by decide)⟩

end A5

namespace A5

/-! ## C8: the masking invariant -/

theorem forLoop_inv {σ : Type} (P : σ → Prop) (n : Nat) (body : Nat → σ → σ)
    (hbody : ∀ i s, P s → P (body i s)) (s : σ) (h : P s) : P (forLoop n body s) := by
  induction n with
  | zero => exact h
  | succ k ih => exact hbody k _ ih

theorem applySteps_nil (s : State) : applySteps [] s = s := rfl

theorem applySteps_cons (f : State → State) (l : List (State → State)) (s : State) :
    applySteps (f :: l) s = applySteps l (f s) := rfl

theorem applySteps_append (l1 l2 : List (State → State)) (s : State) :
    applySteps (l1 ++ l2) s = applySteps l2 (applySteps l1 s) := by
  unfold applySteps; rw [List.foldl_append]

theorem applySteps_stepsOfLoop (n : Nat) (f : Nat → List (State → State)) (s : State) :
    applySteps (stepsOfLoop n f) s = forLoop n (fun i s => applySteps (f i) s) s := by
  induction n with
  | zero => rfl
  | succ k ih => rw [stepsOfLoop, applySteps_append, ih, forLoop_succ]

theorem mem_stepsOfLoop (n : Nat) (f : Nat → List (State → State)) (g : State → State)
    (hg : g ∈ stepsOfLoop n f) : ∃ i, i < n ∧ g ∈ f i := by
  induction n with
  | zero => simp [stepsOfLoop] at hg
  | succ k ih =>
    rw [stepsOfLoop, List.mem_append] at hg
    rcases hg with h | h
    · obtain ⟨i, hi, hm⟩ := ih h
      exact ⟨i, by omega, hm⟩
    · exact ⟨k, by omega, h⟩

/-- The steps of `keysetup`, performed in order, are `keysetup`. -/
theorem applySteps_keysetupSteps (c : Config) (key_reversed : Nat → Nat) (frame : Nat)
    (s : State) :
    applySteps (keysetupSteps c key_reversed frame) s = keysetup c key_reversed frame s := by
  simp only [keysetupSteps, applySteps_cons, applySteps_append, applySteps_stepsOfLoop,
    applySteps_nil]
  rfl

theorem applySteps_take_inv (P : State → Prop) (l : List (State → State))
    (hl : ∀ f, f ∈ l → ∀ s, P s → P (f s)) (n : Nat) (s : State) (hs : P s) :
    P (applySteps (l.take n) s) := by
  induction l generalizing n s with
  | nil => simpa [applySteps] using hs
  | cons f l ih =>
    cases n with
    | zero => simpa [applySteps] using hs
    | succ k =>
      rw [List.take_succ_cons, applySteps_cons]
      exact ih (fun g hg => hl g (List.mem_cons_of_mem f hg)) k (f s)
        (hl f (List.mem_cons_self f l) s hs)

theorem refMasks (c : Config) (hc : c = linearConfig ∨ c = nonLinearConfig) :
    c.R1MASK = 2 ^ 19 - 1 ∧ c.R2MASK = 2 ^ 22 - 1 ∧ c.R3MASK = 2 ^ 23 - 1
      ∧ c.R4MASK = 2 ^ 17 - 1 := by
  rcases hc with rfl | rfl <;> norm_num [linearConfig, nonLinearConfig]

theorem clock_masked (c : Config) (hc : c = linearConfig ∨ c = nonLinearConfig)
    (allP loaded : Nat) (hl : loaded ≤ 1) (s : State) (h : Masked c s) :
    Masked c (clock c allP loaded s) := by
  obtain ⟨e1, e2, e3, e4⟩ := refMasks c hc
  obtain ⟨h1, h2, h3, h4⟩ := h
  have b1 := shiftLeft_le_one loaded 15 hl
  have b2 := shiftLeft_le_one loaded 16 hl
  have b3 := shiftLeft_le_one loaded 18 hl
  have b4 := shiftLeft_le_one loaded 10 hl
  have c1 := clockone_lt c.A5_2 s.R1 c.R1TAPS (loaded <<< 15) 19 (by omega)
    (by have : (2:Nat) ^ 15 < 2 ^ 19 := by norm_num
        omega)
  have c2 := clockone_lt c.A5_2 s.R2 c.R2TAPS (loaded <<< 16) 22 (by omega)
    (by have : (2:Nat) ^ 16 < 2 ^ 22 := by norm_num
        omega)
  have c3 := clockone_lt c.A5_2 s.R3 c.R3TAPS (loaded <<< 18) 23 (by omega)
    (by have : (2:Nat) ^ 18 < 2 ^ 23 := by norm_num
        omega)
  have c4 := clockone_lt true s.R4 c.R4TAPS (loaded <<< 10) 17 (by omega)
    (by have : (2:Nat) ^ 10 < 2 ^ 17 := by norm_num
        omega)
  rw [clock, clockr_eq, e1, e2, e3, e4]
  refine ⟨?_, ?_, ?_, ?_⟩
  · show (if clocksR1 c allP s then _ else _) < _
    split
    · exact c1
    · exact h1
  · show (if clocksR2 c allP s then _ else _) < _
    split
    · exact c2
    · exact h2
  · show (if clocksR3 c allP s then _ else _) < _
    split
    · exact c3
    · exact h3
  · intro ha
    show (if c.A5_2 = true then _ else _) < _
    rw [if_pos ha]
    exact c4

theorem xorbit_masked (c : Config) (b : Nat) (hb : b ≤ 1) (s : State) (h : Masked c s) :
    Masked c (xorbit c b s) := by
  obtain ⟨h1, h2, h3, h4⟩ := h
  have x1 := @Nat.xor_lt_two_pow s.R1 b 19 h1 (by have : (2:Nat) ≤ 2 ^ 19 := by norm_num
                                                  omega)
  have x2 := @Nat.xor_lt_two_pow s.R2 b 22 h2 (by have : (2:Nat) ≤ 2 ^ 22 := by norm_num
                                                  omega)
  have x3 := @Nat.xor_lt_two_pow s.R3 b 23 h3 (by have : (2:Nat) ≤ 2 ^ 23 := by norm_num
                                                  omega)
  cases hc : c.A5_2
  · simp only [xorbit, hc, Masked, Bool.false_eq_true, if_false]
    exact ⟨x1, x2, x3, fun h => absurd h (by simp)⟩
  · have x4 := @Nat.xor_lt_two_pow s.R4 b 17 (h4 hc)
      (by have : (2:Nat) ≤ 2 ^ 17 := by norm_num
          omega)
    simp only [xorbit, hc, Masked, if_true]
    exact ⟨x1, x2, x3, fun _ => x4⟩

theorem zeroRegisters_masked (c : Config) (s : State) : Masked c (zeroRegisters c s) := by
  cases hc : c.A5_2 <;> simp [zeroRegisters, Masked, hc]

theorem getbit_masked (c : Config) (s : State) (h : Masked c s) : Masked c (getbit c s).2 := by
  cases hc : c.A5_2
  · simp only [getbit, hc, Bool.false_eq_true, if_false]
    exact h
  · simp only [getbit, hc, if_true]
    exact h

theorem cycle_masked (c : Config) (hc : c = linearConfig ∨ c = nonLinearConfig) (s : State)
    (h : Masked c s) : Masked c (cycle c s).2 :=
  getbit_masked c _ (clock_masked c hc 0 0 (by omega) s h)

theorem cycles_masked (c : Config) (hc : c = linearConfig ∨ c = nonLinearConfig) (n : Nat)
    (s : State) (h : Masked c s) : Masked c (cycles c n s) :=
  forLoop_inv (Masked c) n _ (fun _ s h => cycle_masked c hc s h) s h

theorem keysetupSteps_tail_masked (c : Config) (hc : c = linearConfig ∨ c = nonLinearConfig)
    (key_reversed : Nat → Nat) (frame : Nat) (f : State → State)
    (hf : f ∈ (keysetupSteps c key_reversed frame).tail) (s : State) (h : Masked c s) :
    Masked c (f s) := by
  simp only [keysetupSteps, List.tail_cons, List.mem_append, List.mem_singleton] at hf
  rcases hf with ((hf | hf) | hf) | hf
  · obtain ⟨i, _, hm⟩ := mem_stepsOfLoop _ _ _ hf
    simp only [List.mem_cons, List.mem_singleton, List.not_mem_nil, or_false] at hm
    rcases hm with rfl | rfl
    · exact clock_masked c hc 1 0 (by omega) s h
    · exact xorbit_masked c _ (and_one_le_one _) s h
  · obtain ⟨i, _, hm⟩ := mem_stepsOfLoop _ _ _ hf
    simp only [List.mem_cons, List.mem_singleton, List.not_mem_nil, or_false] at hm
    rcases hm with rfl | rfl
    · exact clock_masked c hc 1 _ (by split <;> omega) s h
    · exact xorbit_masked c _ (and_one_le_one _) s h
  · obtain ⟨i, _, hm⟩ := mem_stepsOfLoop _ _ _ hf
    simp only [List.mem_singleton] at hm
    subst hm
    exact clock_masked c hc 0 0 (by omega) s h
  · subst hf
    exact getbit_masked c s h

/-- The registers after `n` iterations of the generation loop of `runA51`. -/
theorem runA51_loop (c : Config) (st : State × (Nat → Nat)) (n : Nat) :
    (forLoop n (fun i (st : State × (Nat → Nat)) =>
      let regs := clock c 0 0 st.1
      let r := getbit c regs
      (r.2, store st.2 i (toByte r.1))) st).1 = cycles c n st.1 := by
  induction n with
  | zero => rfl
  | succ k ih => rw [forLoop_succ, cycles_succ, ← ih]; rfl

theorem runA51_regs (c : Config) (s : State) (A : Nat → Nat) :
    (runA51 c s A).1 = cycles c 114 s := by
  unfold runA51
  exact runA51_loop c _ 114

/-- C8: with the reference constants of either variant, for every key,
frame and state before the call: the steps `keysetupSteps` (the zeroing, each
`clock` call, each XOR of a key or frame bit, the final `getbit`) compose to
`keysetup`; after each of them the registers are masked (`R1 < 2^19`,
`R2 < 2^22`, `R3 < 2^23`, and `R4 < 2^17` in the NonLinear variant); and they
are masked after every number `n` of generation cycles after `keysetup`,
`cycles c n` being the register state after `n` iterations of a generation
loop of `run` or `runA51`. -/
theorem registers_stay_masked (c : Config) (hc : c = linearConfig ∨ c = nonLinearConfig)
    (key_reversed : Nat → Nat) (frame : Nat) (s : State) (A B : Nat → Nat) :
    applySteps (keysetupSteps c key_reversed frame) s = keysetup c key_reversed frame s
      ∧ (∀ n, 0 < n → Masked c (applySteps ((keysetupSteps c key_reversed frame).take n) s))
      ∧ (∀ n, Masked c (cycles c n (keysetup c key_reversed frame s)))
      ∧ (run c (keysetup c key_reversed frame s) A B).regs
          = cycles c 228 (keysetup c key_reversed frame s)
      ∧ (runA51 c (keysetup c key_reversed frame s) A).1
          = cycles c 114 (keysetup c key_reversed frame s) := by
  have hpre : ∀ n, 0 < n →
      Masked c (applySteps ((keysetupSteps c key_reversed frame).take n) s) := by
    intro n hn
    obtain ⟨k, rfl⟩ : ∃ k, n = k + 1 := ⟨n - 1, by omega⟩
    have e : keysetupSteps c key_reversed frame
        = zeroRegisters c :: (keysetupSteps c key_reversed frame).tail := rfl
    rw [e, List.take_succ_cons, applySteps_cons]
    exact applySteps_take_inv (Masked c) _
      (fun f hf => keysetupSteps_tail_masked c hc key_reversed frame f hf) k _
      (zeroRegisters_masked c s)
  have hk : Masked c (keysetup c key_reversed frame s) := by
    have h := hpre ((keysetupSteps c key_reversed frame).length + 1) (by omega)
    rw [List.take_of_length_le (by omega), applySteps_keysetupSteps] at h
    exact h
  exact ⟨applySteps_keysetupSteps c key_reversed frame s, hpre,
    fun n => cycles_masked c hc n _ hk, run_regs c _ A B, runA51_regs c _ A⟩

set_option maxRecDepth 100000 in
/-- Witness of C8: the NonLinear variant with the key and frame of `test`,
started from a state whose registers are not masked. -/
theorem registers_stay_masked_witness :
    (nonLinearConfig = linearConfig ∨ nonLinearConfig = nonLinearConfig)
      ∧ (applySteps (keysetupSteps nonLinearConfig (ofBytes testKeyA52) 0x21)
            (State.mk 0xFFFFFFFF 0xFFFFFFFF 0xFFFFFFFF 0xFFFFFFFF 1)
          = keysetup nonLinearConfig (ofBytes testKeyA52) 0x21
            (State.mk 0xFFFFFFFF 0xFFFFFFFF 0xFFFFFFFF 0xFFFFFFFF 1)
        ∧ (∀ n, 0 < n → Masked nonLinearConfig
            (applySteps ((keysetupSteps nonLinearConfig (ofBytes testKeyA52) 0x21).take n)
              (State.mk 0xFFFFFFFF 0xFFFFFFFF 0xFFFFFFFF 0xFFFFFFFF 1)))
        ∧ (∀ n, Masked nonLinearConfig (cycles nonLinearConfig n
            (keysetup nonLinearConfig (ofBytes testKeyA52) 0x21
              (State.mk 0xFFFFFFFF 0xFFFFFFFF 0xFFFFFFFF 0xFFFFFFFF 1))))
        ∧ (run nonLinearConfig (keysetup nonLinearConfig (ofBytes testKeyA52) 0x21
              (State.mk 0xFFFFFFFF 0xFFFFFFFF 0xFFFFFFFF 0xFFFFFFFF 1))
              (fun _ => 0) (fun _ => 0)).regs
            = cycles nonLinearConfig 228 (keysetup nonLinearConfig (ofBytes testKeyA52) 0x21
              (State.mk 0xFFFFFFFF 0xFFFFFFFF 0xFFFFFFFF 0xFFFFFFFF 1))
        ∧ (runA51 nonLinearConfig (keysetup nonLinearConfig (ofBytes testKeyA52) 0x21
              (State.mk 0xFFFFFFFF 0xFFFFFFFF 0xFFFFFFFF 0xFFFFFFFF 1)) (fun _ => 0)).1
            = cycles nonLinearConfig 114 (keysetup nonLinearConfig (ofBytes testKeyA52) 0x21
              (State.mk 0xFFFFFFFF 0xFFFFFFFF 0xFFFFFFFF 0xFFFFFFFF 1))) :=
  ⟨Or.inr rfl,
    registers_stay_masked nonLinearConfig (Or.inr rfl) (ofBytes testKeyA52) 0x21
      (State.mk 0xFFFFFFFF 0xFFFFFFFF 0xFFFFFFFF 0xFFFFFFFF 1) (fun _ => 0) (fun _ => 0)⟩

end A5

namespace A5

/-! ## C11: `parity` is linear over XOR -/

/-- C11: for all words `a` and `b`, `parity (a xor b) = parity a xor parity b`. -/
theorem parity_xor (a b : Nat) : parity (a ^^^ b) = parity a ^^^ parity b := by
  rw [parity_eq_xorBits, parity_eq_xorBits, parity_eq_xorBits, xorBits_xor]
  cases xorBits a 32 <;> cases xorBits b 32 <;> rfl

/-! ## C12: `majority` -/

/-- C12: for all words `w1`, `w2`, `w3`, `majority` is 1 if at least two of
them are non-zero and 0 otherwise. -/
theorem majority_spec (w1 w2 w3 : Nat) :
    majority w1 w2 w3
      = if (w1 ≠ 0 ∧ w2 ≠ 0) ∨ (w1 ≠ 0 ∧ w3 ≠ 0) ∨ (w2 ≠ 0 ∧ w3 ≠ 0) then 1 else 0 := by
  unfold majority ne0
  by_cases h1 : w1 = 0 <;> by_cases h2 : w2 = 0 <;> by_cases h3 : w3 = 0 <;> simp [h1, h2, h3]

end A5

namespace A5

/-! ## C13: at least two registers are clocked -/

theorem clocked_cases (allP a b d : Nat) (ha : a ≤ 1) (hb : b ≤ 1) (hd : d ≤ 1) :
    (2 ≤ (if (0 ≠ 0 ∨ a = if a + b + d ≥ 2 then 1 else 0) then 1 else 0)
          + (if (0 ≠ 0 ∨ b = if a + b + d ≥ 2 then 1 else 0) then 1 else 0)
          + (if (0 ≠ 0 ∨ d = if a + b + d ≥ 2 then 1 else 0) then 1 else 0))
      ∧ ((if (0 ≠ 0 ∨ a = if a + b + d ≥ 2 then 1 else 0) then 1 else 0)
          + (if (0 ≠ 0 ∨ b = if a + b + d ≥ 2 then 1 else 0) then 1 else 0)
          + (if (0 ≠ 0 ∨ d = if a + b + d ≥ 2 then 1 else 0) then 1 else 0) = 3
        ↔ a = b ∧ b = d)
      ∧ (if (allP + 1 ≠ 0 ∨ a = if a + b + d ≥ 2 then 1 else 0) then 1 else 0)
          + (if (allP + 1 ≠ 0 ∨ b = if a + b + d ≥ 2 then 1 else 0) then 1 else 0)
          + (if (allP + 1 ≠ 0 ∨ d = if a + b + d ≥ 2 then 1 else 0) then 1 else 0) = 3 := by
  have ha' : a = 0 ∨ a = 1 := by omega
  have hb' : b = 0 ∨ b = 1 := by omega
  have hd' : d = 0 ∨ d = 1 := by omega
  rcases ha' with rfl | rfl <;> rcases hb' with rfl | rfl <;> rcases hd' with rfl | rfl <;> simp

/-- C13: in both variants and for every state and all constants, `clockr`
clocks `Ri` (replaces it by `clockone` of it) exactly when `clocksRi` holds;
with `allP = 0` at least two of `R1`, `R2`, `R3` are clocked, and all three
exactly when the three control bits are equal; with `allP ≠ 0` all three are
clocked. -/
theorem clockr_clocks_two_or_three (c : Config) (allP loaded : Nat) (s : State) :
    clockr c allP loaded s
        = ⟨if clocksR1 c allP s then clockone c.A5_2 s.R1 c.R1MASK c.R1TAPS (loaded <<< 15)
            else s.R1,
           if clocksR2 c allP s then clockone c.A5_2 s.R2 c.R2MASK c.R2TAPS (loaded <<< 16)
            else s.R2,
           if clocksR3 c allP s then clockone c.A5_2 s.R3 c.R3MASK c.R3TAPS (loaded <<< 18)
            else s.R3,
           if c.A5_2 then clockone true s.R4 c.R4MASK c.R4TAPS (loaded <<< 10) else s.R4,
           s.delaybit⟩
      ∧ 2 ≤ clockedCount c 0 s
      ∧ (clockedCount c 0 s = 3
          ↔ controlBit c s 1 = controlBit c s 2 ∧ controlBit c s 2 = controlBit c s 3)
      ∧ clockedCount c (allP + 1) s = 3 := by
  refine ⟨clockr_eq c allP loaded s, ?_⟩
  cases hc : c.A5_2
  · simp only [clockedCount, clocksR1, clocksR2, clocksR3, controlBit, majority, hc,
      Bool.false_eq_true, if_false, if_true, OfNat.ofNat_ne_one, OfNat.one_ne_ofNat,
      OfNat.ofNat_eq_ofNat, Nat.reduceEqDiff]
    exact clocked_cases allP _ _ _ (ne0_le_one _) (ne0_le_one _) (ne0_le_one _)
  · simp only [clockedCount, clocksR1, clocksR2, clocksR3, controlBit, majority, hc,
      if_true, OfNat.ofNat_ne_one, OfNat.one_ne_ofNat, OfNat.ofNat_eq_ofNat,
      Nat.reduceEqDiff, if_false]
    exact clocked_cases allP _ _ _ (ne0_le_one _) (ne0_le_one _) (ne0_le_one _)

end A5

namespace A5

/-! ## C14: `runA51` against `run` -/

theorem runA51_loop_eq (c : Config) (st : State × (Nat → Nat)) (n : Nat) :
    forLoop n (fun i (st : State × (Nat → Nat)) =>
      let regs := clock c 0 0 st.1
      let r := getbit c regs
      (r.2, store st.2 i (toByte r.1))) st
    = (cycles c n st.1, fun j => if j < n then toByte (streamBit c st.1 j) else st.2 j) := by
  induction n with
  | zero => rfl
  | succ k ih =>
    rw [forLoop_succ, ih]
    refine Prod.ext rfl ?_
    funext j
    show store _ k (toByte (streamBit c st.1 k)) j = _
    simp only [store]
    by_cases h1 : j = k
    · subst h1; simp
    · by_cases h2 : j < k
      · have : j < k + 1 := by omega
        simp [h1, h2, this]
      · have : ¬ j < k + 1 := by omega
        simp [h1, h2, this]

theorem runA51_byte (c : Config) (s : State) (A : Nat → Nat) (i : Nat) (hi : i < 114) :
    (runA51 c s A).2 i = toByte (streamBit c s i) := by
  unfold runA51
  simp only [runA51_loop_eq, hi, if_true]

theorem genAtoB_regs (c : Config) (st : RunState) :
    (genAtoB c st).regs = cycles c 114 st.regs := by
  unfold genAtoB; rw [genAtoB_loop]

/-- C14: in the Linear variant, for every state and every prior buffer
content, each of the 114 bytes that `runA51` writes is 0 or 1, `runA51`
leaves the registers as the first 114 cycles (the A->B loop) of `run` leave
them, and byte `i` of its output is bit `7 - i mod 8` of byte `i div 8` of the
A->B buffer that `run` fills from the same state, for every `i < 114`. -/
theorem runA51_agrees_with_run (c : Config) (hc : c.A5_2 = false) (s : State)
    (A A1 B1 : Nat → Nat) :
    (∀ i, i < 114 → (runA51 c s A).2 i = 0 ∨ (runA51 c s A).2 i = 1)
      ∧ (runA51 c s A).1 = (genAtoB c (zeroBuffers ⟨s, A1, B1⟩)).regs
      ∧ (∀ i, i < 114 →
          (runA51 c s A).2 i
            = (run c s A1 B1).AtoBkeystream (i / 8) / 2 ^ (7 - i % 8) % 2) := by
  have hd : c.A5_2 = true → s.delaybit ≤ 1 := by rw [hc]; intro h; cases h
  have hb : ∀ i, toByte (streamBit c s i) = streamBit c s i := by
    intro i
    have := streamBit_le_one c s hd i
    unfold toByte
    omega
  refine ⟨fun i hi => ?_, ?_, fun i hi => ?_⟩
  · rw [runA51_byte c s A i hi, hb]
    have := streamBit_le_one c s hd i
    omega
  · rw [runA51_regs, genAtoB_regs, zeroBuffers_eq]
  · rw [runA51_byte c s A i hi, hb, run_AtoB_bit c s A1 B1 hd i hi]

/-- Witness of C14: the Linear variant with the reference constants,
started with registers 1, 2, 3, over buffers holding 255 everywhere. -/
theorem runA51_agrees_with_run_witness :
    linearConfig.A5_2 = false
      ∧ ((∀ i, i < 114 →
            (runA51 linearConfig (State.mk 1 2 3 0 0) (fun _ => 255)).2 i = 0
            ∨ (runA51 linearConfig (State.mk 1 2 3 0 0) (fun _ => 255)).2 i = 1)
        ∧ (runA51 linearConfig (State.mk 1 2 3 0 0) (fun _ => 255)).1
            = (genAtoB linearConfig
                (zeroBuffers ⟨State.mk 1 2 3 0 0, fun _ => 255, fun _ => 255⟩)).regs
        ∧ (∀ i, i < 114 →
            (runA51 linearConfig (State.mk 1 2 3 0 0) (fun _ => 255)).2 i
              = (run linearConfig (State.mk 1 2 3 0 0) (fun _ => 255)
                  (fun _ => 255)).AtoBkeystream (i / 8) / 2 ^ (7 - i % 8) % 2)) :=
  ⟨rfl, runA51_agrees_with_run linearConfig rfl (State.mk 1 2 3 0 0) (fun _ => 255)
    (fun _ => 255) (fun _ => 255)⟩

end A5

namespace A5

/-! ## C15: `getbit` does not change a register -/

theorem getbit_linear (c : Config) (hc : c.A5_2 = false) (s : State) :
    getbit c s = (((s.R1 >>> 18) ^^^ (s.R2 >>> 21) ^^^ (s.R3 >>> 22)) &&& 0x01, s) := by
  simp only [getbit, hc, Bool.false_eq_true, if_false]

theorem getbit_nonLinear (c : Config) (hc : c.A5_2 = true) (s : State) :
    getbit c s = (s.delaybit, { s with delaybit := outputF s }) := by
  simp only [getbit, hc, if_true, outputF]

theorem getbit_regs (c : Config) (s : State) :
    (getbit c s).2.R1 = s.R1 ∧ (getbit c s).2.R2 = s.R2 ∧ (getbit c s).2.R3 = s.R3
      ∧ (getbit c s).2.R4 = s.R4 := by
  cases hc : c.A5_2
  · rw [getbit_linear c hc]; exact ⟨rfl, rfl, rfl, rfl⟩
  · rw [getbit_nonLinear c hc]; exact ⟨rfl, rfl, rfl, rfl⟩

theorem topbits_eq (a b d : Nat) :
    ((a >>> 18) ^^^ (b >>> 21) ^^^ (d >>> 22)) &&& 0x01
      = (a / 2 ^ 18 % 2) ^^^ (b / 2 ^ 21 % 2) ^^^ (d / 2 ^ 22 % 2) := by
  rw [Nat.and_xor_distrib_right, Nat.and_xor_distrib_right, Nat.and_one_is_mod,
    Nat.and_one_is_mod, Nat.and_one_is_mod, Nat.shiftRight_eq_div_pow,
    Nat.shiftRight_eq_div_pow, Nat.shiftRight_eq_div_pow]

theorem keysetup_eq_getbit (c : Config) (key_reversed : Nat → Nat) (frame : Nat) (s : State) :
    keysetup c key_reversed frame s
      = (getbit c (mix c (loadPhase c key_reversed frame s))).2 := rfl

/-- C15: for every state, `getbit` leaves `R1`, `R2`, `R3` and `R4` as they
were; in the Linear variant it leaves the whole state unchanged and returns
bit 18 of `R1` xor bit 21 of `R2` xor bit 22 of `R3`; in the NonLinear variant
the state after it differs from the state before at most in the delay bit.
Hence the registers after `keysetup` are those that the 100 mixing cycles
left. -/
theorem getbit_keeps_registers (c : Config) (s : State) (key_reversed : Nat → Nat)
    (frame : Nat) :
    ((getbit c s).2.R1 = s.R1 ∧ (getbit c s).2.R2 = s.R2 ∧ (getbit c s).2.R3 = s.R3
        ∧ (getbit c s).2.R4 = s.R4)
      ∧ (c.A5_2 = false →
          (getbit c s).2 = s
          ∧ (getbit c s).1
            = (s.R1 / 2 ^ 18 % 2) ^^^ (s.R2 / 2 ^ 21 % 2) ^^^ (s.R3 / 2 ^ 22 % 2))
      ∧ (c.A5_2 = true → (getbit c s).2 = { s with delaybit := (getbit c s).2.delaybit })
      ∧ ((keysetup c key_reversed frame s).R1 = (mix c (loadPhase c key_reversed frame s)).R1
        ∧ (keysetup c key_reversed frame s).R2 = (mix c (loadPhase c key_reversed frame s)).R2
        ∧ (keysetup c key_reversed frame s).R3 = (mix c (loadPhase c key_reversed frame s)).R3
        ∧ (keysetup c key_reversed frame s).R4
            = (mix c (loadPhase c key_reversed frame s)).R4) := by
  refine ⟨getbit_regs c s, fun hc => ?_, fun hc => ?_, ?_⟩
  · rw [getbit_linear c hc]
    exact ⟨rfl, topbits_eq _ _ _⟩
  · rw [getbit_nonLinear c hc]
  · rw [keysetup_eq_getbit]
    exact getbit_regs c (mix c (loadPhase c key_reversed frame s))

/-! ## C16: the one-cycle output delay of the NonLinear variant -/

theorem outputF_congr (s t : State) (h1 : s.R1 = t.R1) (h2 : s.R2 = t.R2) (h3 : s.R3 = t.R3) :
    outputF s = outputF t := by
  unfold outputF; rw [h1, h2, h3]

theorem cycle_nonLinear (c : Config) (hc : c.A5_2 = true) (s : State) :
    (cycle c s).1 = s.delaybit
      ∧ (cycle c s).2.delaybit = outputF (cycle c s).2 := by
  unfold cycle
  rw [getbit_nonLinear c hc, clock, clockr_delaybit]
  exact ⟨rfl, rfl⟩

theorem cycles_primed (c : Config) (hc : c.A5_2 = true) (n : Nat) (s : State)
    (h : s.delaybit = outputF s) : (cycles c n s).delaybit = outputF (cycles c n s) := by
  cases n with
  | zero => exact h
  | succ k => rw [cycles_succ]; exact (cycle_nonLinear c hc _).2

theorem streamBit_primed (c : Config) (hc : c.A5_2 = true) (n : Nat) (s : State)
    (h : s.delaybit = outputF s) : streamBit c s n = outputF (cycles c n s) := by
  unfold streamBit
  rw [(cycle_nonLinear c hc _).1]
  exact cycles_primed c hc n s h

theorem keysetup_primed (c : Config) (hc : c.A5_2 = true) (key_reversed : Nat → Nat)
    (frame : Nat) (s : State) :
    (keysetup c key_reversed frame s).delaybit = outputF (keysetup c key_reversed frame s)
      ∧ outputF (keysetup c key_reversed frame s)
          = outputF (mix c (loadPhase c key_reversed frame s)) := by
  rw [keysetup_eq_getbit, getbit_nonLinear c hc]
  exact ⟨rfl, rfl⟩

theorem clockrN_succ (c : Config) (n : Nat) (s : State) :
    clockrN c (n + 1) s = clockr c 0 0 (clockrN c n s) := rfl

theorem getbit_sameRegs_left (c : Config) (s t : State) (h : sameRegs c s t) :
    sameRegs c (getbit c s).2 t := by
  obtain ⟨g1, g2, g3, g4⟩ := getbit_regs c s
  obtain ⟨h1, h2, h3, h4⟩ := h
  exact ⟨g1.trans h1, g2.trans h2, g3.trans h3, fun hc => g4.trans (h4 hc)⟩

theorem cycles_sameRegs_clockrN (c : Config) (n : Nat) (s t : State) (h : sameRegs c s t) :
    sameRegs c (cycles c n s) (clockrN c n t) := by
  induction n with
  | zero => exact h
  | succ k ih =>
    rw [cycles_succ, clockrN_succ, cycle, clock]
    exact getbit_sameRegs_left c _ _ (clockr_sameRegs c 0 0 _ _ ih)

/-- C16: in the NonLinear variant, with `outputF` the function `F` of the
registers: every `getbit` call returns the stored delay bit and stores `F` of
the current registers, so a call made while the delay bit is the one stored by
an earlier call returns `F` of the registers as they were at that earlier
call.  Hence, for every key and frame, keystream bit 0 after `keysetup` is `F`
of the registers at the end of the 100 mixing cycles, and keystream bit `n` is
`F` of the registers after `n` cycles of `run`, which are the registers after
`n` calls `clockr(0, 0)` from the end of the mixing cycles. -/
theorem getbit_output_delay (c : Config) (hc : c.A5_2 = true) (key_reversed : Nat → Nat)
    (frame : Nat) (s0 : State) :
    (∀ s, (getbit c s).1 = s.delaybit ∧ (getbit c s).2.delaybit = outputF s)
      ∧ (∀ s t, t.delaybit = (getbit c s).2.delaybit → (getbit c t).1 = outputF s)
      ∧ streamBit c (keysetup c key_reversed frame s0) 0
          = outputF (mix c (loadPhase c key_reversed frame s0))
      ∧ (∀ n, streamBit c (keysetup c key_reversed frame s0) n
          = outputF (cycles c n (keysetup c key_reversed frame s0)))
      ∧ (∀ n, outputF (cycles c n (keysetup c key_reversed frame s0))
          = outputF (clockrN c n (mix c (loadPhase c key_reversed frame s0)))) := by
  have hp := keysetup_primed c hc key_reversed frame s0
  refine ⟨fun s => ?_, fun s t ht => ?_, ?_, fun n => ?_, fun n => ?_⟩
  · rw [getbit_nonLinear c hc]; exact ⟨rfl, rfl⟩
  · rw [getbit_nonLinear c hc] at ht ⊢
    exact ht
  · rw [streamBit_primed c hc 0 _ hp.1]
    exact hp.2
  · exact streamBit_primed c hc n _ hp.1
  · have hk : sameRegs c (keysetup c key_reversed frame s0)
        (mix c (loadPhase c key_reversed frame s0)) := by
      rw [keysetup_eq_getbit]
      exact getbit_sameRegs_left c _ _ (sameRegs_refl c _)
    obtain ⟨h1, h2, h3, _⟩ := cycles_sameRegs_clockrN c n _ _ hk
    exact outputF_congr _ _ h1 h2 h3

/-- Witness of C16: the NonLinear variant with the reference constants and
the key and frame of `test`. -/
theorem getbit_output_delay_witness :
    nonLinearConfig.A5_2 = true
      ∧ ((∀ s, (getbit nonLinearConfig s).1 = s.delaybit
            ∧ (getbit nonLinearConfig s).2.delaybit = outputF s)
        ∧ (∀ s t, t.delaybit = (getbit nonLinearConfig s).2.delaybit →
            (getbit nonLinearConfig t).1 = outputF s)
        ∧ streamBit nonLinearConfig
            (keysetup nonLinearConfig (ofBytes testKeyA52) 0x21 initState) 0
            = outputF (mix nonLinearConfig
                (loadPhase nonLinearConfig (ofBytes testKeyA52) 0x21 initState))
        ∧ (∀ n, streamBit nonLinearConfig
              (keysetup nonLinearConfig (ofBytes testKeyA52) 0x21 initState) n
            = outputF (cycles nonLinearConfig n
                (keysetup nonLinearConfig (ofBytes testKeyA52) 0x21 initState)))
        ∧ (∀ n, outputF (cycles nonLinearConfig n
                (keysetup nonLinearConfig (ofBytes testKeyA52) 0x21 initState))
            = outputF (clockrN nonLinearConfig n (mix nonLinearConfig
                (loadPhase nonLinearConfig (ofBytes testKeyA52) 0x21 initState))))) :=
  ⟨rfl, getbit_output_delay nonLinearConfig rfl (ofBytes testKeyA52) 0x21 initState⟩

end A5

namespace A5

/-! ## C17: the forced bits of the NonLinear variant -/

end A5

namespace A5

/-! ## C18: the order in which the key bits are consumed -/

theorem reverseKey_apply (k : Nat → Nat) (j : Nat) (hj : j < 8) :
    reverseKey k j = toByte (k (7 - j)) := by
  simp only [reverseKey, forLoop, store]
  interval_cases j <;> simp

end A5

namespace A5

/-! ## C20: in the NonLinear variant `R4` alone drives the clocking -/

end A5

namespace A5

/-! ## C19: the loading phase of the Linear variant is linear over GF(2) -/

theorem forLoop_rel3 {σ : Type} (R : σ → σ → σ → Prop) (n : Nat) (f g h : Nat → σ → σ)
    (hstep : ∀ i, i < n → ∀ a b d, R a b d → R (f i a) (g i b) (h i d)) (a b d : σ)
    (h0 : R a b d) : R (forLoop n f a) (forLoop n g b) (forLoop n h d) := by
  induction n with
  | zero => exact h0
  | succ k ih =>
    exact hstep k (by omega) _ _ _ (ih (fun i hi => hstep i (by omega)))

theorem bitAt_eq (x r : Nat) : (x >>> r) &&& 1 = (x.testBit r).toNat := by
  rw [Nat.and_one_is_mod, Nat.shiftRight_eq_div_pow, Nat.toNat_testBit]

theorem toNat_xor (p q : Bool) : (xor p q).toNat = p.toNat ^^^ q.toNat := by
  cases p <;> cases q <;> rfl

theorem bitAt_xor (x y r : Nat) :
    ((x ^^^ y) >>> r) &&& 1 = ((x >>> r) &&& 1) ^^^ ((y >>> r) &&& 1) := by
  rw [bitAt_eq, bitAt_eq, bitAt_eq, Nat.testBit_xor, toNat_xor]

theorem toByte_xor (x y : Nat) : toByte (x ^^^ y) = toByte x ^^^ toByte y := by
  have h256 : (256 : Nat) = 2 ^ 8 := by norm_num
  unfold toByte
  rw [h256]
  apply Nat.eq_of_testBit_eq
  intro i
  simp only [Nat.testBit_mod_two_pow, Nat.testBit_xor]
  cases decide (i < 8) <;> simp

theorem toWord_shiftLeft_testBit (r j : Nat) :
    (toWord (r <<< 1)).testBit j = (decide (j < 32) && (decide (j ≥ 1) && r.testBit (j - 1))) := by
  simp only [toWord, wordBits, Nat.testBit_mod_two_pow, Nat.testBit_shiftLeft]

theorem clockone_linear (a b mask taps l1 l2 l3 : Nat) :
    clockone false (a ^^^ b) mask taps l1
      = clockone false a mask taps l2 ^^^ clockone false b mask taps l3 := by
  simp only [clockone, Bool.false_eq_true, if_false]
  rw [Nat.and_xor_distrib_right, parity_xor]
  apply Nat.eq_of_testBit_eq
  intro j
  simp only [Nat.testBit_xor, Nat.testBit_or, Nat.testBit_and, toWord_shiftLeft_testBit]
  cases j with
  | zero => simp
  | succ k =>
    have p1 : (parity (a &&& taps)).testBit (k + 1) = false := by
      rw [testBit_le_one _ (parity_le_one _)]; simp
    have p2 : (parity (b &&& taps)).testBit (k + 1) = false := by
      rw [testBit_le_one _ (parity_le_one _)]; simp
    rw [p1, p2]
    cases decide (k + 1 < 32) <;> cases decide (k + 1 ≥ 1) <;> cases a.testBit (k + 1 - 1) <;>
      cases b.testBit (k + 1 - 1) <;> cases mask.testBit (k + 1) <;> rfl

theorem xor_xor_xor_comm (x y p q : Nat) : (x ^^^ y) ^^^ (p ^^^ q) = (x ^^^ p) ^^^ (y ^^^ q) := by
  ac_rfl

/-- The registers of `a` are the XOR of those of `b` and `d`. -/
theorem loadStep_linear (c : Config) (hc : c.A5_2 = false) (loaded b1 b2 : Nat)
    (a b d : State)
    (h : a.R1 = b.R1 ^^^ d.R1 ∧ a.R2 = b.R2 ^^^ d.R2 ∧ a.R3 = b.R3 ^^^ d.R3) :
    (xorbit c (b1 ^^^ b2) (clock c 1 loaded a)).R1
        = (xorbit c b1 (clock c 1 loaded b)).R1 ^^^ (xorbit c b2 (clock c 1 loaded d)).R1
      ∧ (xorbit c (b1 ^^^ b2) (clock c 1 loaded a)).R2
        = (xorbit c b1 (clock c 1 loaded b)).R2 ^^^ (xorbit c b2 (clock c 1 loaded d)).R2
      ∧ (xorbit c (b1 ^^^ b2) (clock c 1 loaded a)).R3
        = (xorbit c b1 (clock c 1 loaded b)).R3
          ^^^ (xorbit c b2 (clock c 1 loaded d)).R3 := by
  obtain ⟨h1, h2, h3⟩ := h
  have k1 : ∀ u, clocksR1 c 1 u := fun u => by simp [clocksR1]
  have k2 : ∀ u, clocksR2 c 1 u := fun u => by simp [clocksR2]
  have k3 : ∀ u, clocksR3 c 1 u := fun u => by simp [clocksR3]
  simp only [clock, clockr_eq, xorbit, hc, Bool.false_eq_true, if_false, if_true, k1, k2, k3,
    h1, h2, h3]
  refine ⟨?_, ?_, ?_⟩
  · rw [clockone_linear _ _ _ _ _ (loaded <<< 15) (loaded <<< 15), xor_xor_xor_comm]
  · rw [clockone_linear _ _ _ _ _ (loaded <<< 16) (loaded <<< 16), xor_xor_xor_comm]
  · rw [clockone_linear _ _ _ _ _ (loaded <<< 18) (loaded <<< 18), xor_xor_xor_comm]

end A5

namespace A5

theorem reverseKey_xor (k1 k2 : Nat → Nat) (q : Nat) (hq : q < 8) :
    reverseKey (fun j => k1 j ^^^ k2 j) q = reverseKey k1 q ^^^ reverseKey k2 q := by
  rw [reverseKey_apply _ q hq, reverseKey_apply k1 q hq, reverseKey_apply k2 q hq, toByte_xor]

theorem loadKey_linear (c : Config) (hc : c.A5_2 = false) (k1 k2 : Nat → Nat) (a b d : State)
    (h : a.R1 = b.R1 ^^^ d.R1 ∧ a.R2 = b.R2 ^^^ d.R2 ∧ a.R3 = b.R3 ^^^ d.R3) :
    (loadKey c (reverseKey (fun j => k1 j ^^^ k2 j)) a).R1
        = (loadKey c (reverseKey k1) b).R1 ^^^ (loadKey c (reverseKey k2) d).R1
      ∧ (loadKey c (reverseKey (fun j => k1 j ^^^ k2 j)) a).R2
        = (loadKey c (reverseKey k1) b).R2 ^^^ (loadKey c (reverseKey k2) d).R2
      ∧ (loadKey c (reverseKey (fun j => k1 j ^^^ k2 j)) a).R3
        = (loadKey c (reverseKey k1) b).R3 ^^^ (loadKey c (reverseKey k2) d).R3 := by
  unfold loadKey
  apply forLoop_rel3
    (fun a b d : State => a.R1 = b.R1 ^^^ d.R1 ∧ a.R2 = b.R2 ^^^ d.R2 ∧ a.R3 = b.R3 ^^^ d.R3)
    64 _ _ _ _ a b d h
  intro i hi a b d h
  simp only [loadKeyStep]
  rw [reverseKey_xor k1 k2 (i / 8) (by omega), bitAt_xor]
  exact loadStep_linear c hc 0 _ _ a b d h

theorem loadFrame_linear (c : Config) (hc : c.A5_2 = false) (f1 f2 : Nat) (a b d : State)
    (h : a.R1 = b.R1 ^^^ d.R1 ∧ a.R2 = b.R2 ^^^ d.R2 ∧ a.R3 = b.R3 ^^^ d.R3) :
    (loadFrame c (f1 ^^^ f2) a).R1 = (loadFrame c f1 b).R1 ^^^ (loadFrame c f2 d).R1
      ∧ (loadFrame c (f1 ^^^ f2) a).R2 = (loadFrame c f1 b).R2 ^^^ (loadFrame c f2 d).R2
      ∧ (loadFrame c (f1 ^^^ f2) a).R3
        = (loadFrame c f1 b).R3 ^^^ (loadFrame c f2 d).R3 := by
  unfold loadFrame
  apply forLoop_rel3
    (fun a b d : State => a.R1 = b.R1 ^^^ d.R1 ∧ a.R2 = b.R2 ^^^ d.R2 ∧ a.R3 = b.R3 ^^^ d.R3)
    22 _ _ _ _ a b d h
  intro i _ a b d h
  simp only [loadFrameStep]
  rw [bitAt_xor]
  exact loadStep_linear c hc _ _ _ a b d h

theorem zeroRegisters_linear (c : Config) (hc : c.A5_2 = false) (s s1 s2 : State) :
    (zeroRegisters c s).R1 = (zeroRegisters c s1).R1 ^^^ (zeroRegisters c s2).R1
      ∧ (zeroRegisters c s).R2 = (zeroRegisters c s1).R2 ^^^ (zeroRegisters c s2).R2
      ∧ (zeroRegisters c s).R3 = (zeroRegisters c s1).R3 ^^^ (zeroRegisters c s2).R3 := by
  simp [zeroRegisters, hc]

theorem loadPhase_linear (c : Config) (hc : c.A5_2 = false) (k1 k2 : Nat → Nat) (f1 f2 : Nat)
    (s s1 s2 : State) :
    (loadPhase c (fun j => k1 j ^^^ k2 j) (f1 ^^^ f2) s).R1
        = (loadPhase c k1 f1 s1).R1 ^^^ (loadPhase c k2 f2 s2).R1
      ∧ (loadPhase c (fun j => k1 j ^^^ k2 j) (f1 ^^^ f2) s).R2
        = (loadPhase c k1 f1 s1).R2 ^^^ (loadPhase c k2 f2 s2).R2
      ∧ (loadPhase c (fun j => k1 j ^^^ k2 j) (f1 ^^^ f2) s).R3
        = (loadPhase c k1 f1 s1).R3 ^^^ (loadPhase c k2 f2 s2).R3 := by
  unfold loadPhase
  exact loadFrame_linear c hc f1 f2 _ _ _
    (loadKey_linear c hc k1 k2 _ _ _ (zeroRegisters_linear c hc s s1 s2))

theorem loadPhase_zero (c : Config) (hc : c.A5_2 = false) (s : State) :
    (loadPhase c (fun _ => 0) 0 s).R1 = 0 ∧ (loadPhase c (fun _ => 0) 0 s).R2 = 0
      ∧ (loadPhase c (fun _ => 0) 0 s).R3 = 0 := by
  have h := loadPhase_linear c hc (fun _ => 0) (fun _ => 0) 0 0 s s s
  simp only [Nat.xor_self] at h
  exact h

theorem clockone_zero (mask taps lb : Nat) : clockone false 0 mask taps lb = 0 := by
  simp [clockone, toWord, parity]

theorem clockr_zero (c : Config) (hc : c.A5_2 = false) (allP loaded : Nat) (u : State)
    (h : u.R1 = 0 ∧ u.R2 = 0 ∧ u.R3 = 0) :
    (clockr c allP loaded u).R1 = 0 ∧ (clockr c allP loaded u).R2 = 0
      ∧ (clockr c allP loaded u).R3 = 0 := by
  obtain ⟨h1, h2, h3⟩ := h
  rw [clockr_eq]
  refine ⟨?_, ?_, ?_⟩ <;> simp only [hc, h1, h2, h3, clockone_zero, ite_self]

theorem getbit_zero (c : Config) (hc : c.A5_2 = false) (u : State)
    (h : u.R1 = 0 ∧ u.R2 = 0 ∧ u.R3 = 0) : (getbit c u).1 = 0 := by
  obtain ⟨h1, h2, h3⟩ := h
  rw [getbit_linear c hc, h1, h2, h3]
  rfl

theorem cycle_zero (c : Config) (hc : c.A5_2 = false) (u : State)
    (h : u.R1 = 0 ∧ u.R2 = 0 ∧ u.R3 = 0) :
    (cycle c u).2.R1 = 0 ∧ (cycle c u).2.R2 = 0 ∧ (cycle c u).2.R3 = 0 := by
  unfold cycle
  rw [getbit_linear c hc, clock]
  exact clockr_zero c hc 0 0 u h

theorem streamBit_zero (c : Config) (hc : c.A5_2 = false) (u : State)
    (h : u.R1 = 0 ∧ u.R2 = 0 ∧ u.R3 = 0) (i : Nat) : streamBit c u i = 0 := by
  unfold streamBit cycle
  rw [clock]
  exact getbit_zero c hc _ (clockr_zero c hc 0 0 _
    (forLoop_inv (fun u : State => u.R1 = 0 ∧ u.R2 = 0 ∧ u.R3 = 0) i _
      (fun _ u hu => cycle_zero c hc u hu) u h))

theorem keysetup_zero (c : Config) (hc : c.A5_2 = false) (s : State) :
    (keysetup c (fun _ => 0) 0 s).R1 = 0 ∧ (keysetup c (fun _ => 0) 0 s).R2 = 0
      ∧ (keysetup c (fun _ => 0) 0 s).R3 = 0 := by
  rw [keysetup_eq_getbit, getbit_linear c hc]
  unfold mix
  exact forLoop_inv (fun u : State => u.R1 = 0 ∧ u.R2 = 0 ∧ u.R3 = 0) 100 _
    (fun _ u hu => clockr_zero c hc 0 0 u hu) _ (loadPhase_zero c hc s)

theorem packed15_zero : packed15 (fun _ => 0) = List.replicate 15 0 := by
  decide

/-- C19: in the Linear variant, for any mask and tap constants, each of `R1`,
`R2`, `R3` at the end of the loading phase of `keysetup` for the key
`k1 xor k2` (bytewise) and the frame `f1 xor f2` is the XOR of its values for
`(k1, f1)` and for `(k2, f2)`, whatever the states before; the all-zero key
with frame 0 leaves the three registers 0; the all-zero registers are a fixed
point of `clockr` with output bit 0; and `keysetup` with the all-zero key and
frame 0 followed by `run` fills both 15-byte buffers with zeros. -/
theorem loading_is_linear (c : Config) (hc : c.A5_2 = false) (k1 k2 : Nat → Nat)
    (f1 f2 : Nat) (s s1 s2 : State) (A B : Nat → Nat) :
    ((loadPhase c (fun j => k1 j ^^^ k2 j) (f1 ^^^ f2) s).R1
          = (loadPhase c k1 f1 s1).R1 ^^^ (loadPhase c k2 f2 s2).R1
        ∧ (loadPhase c (fun j => k1 j ^^^ k2 j) (f1 ^^^ f2) s).R2
          = (loadPhase c k1 f1 s1).R2 ^^^ (loadPhase c k2 f2 s2).R2
        ∧ (loadPhase c (fun j => k1 j ^^^ k2 j) (f1 ^^^ f2) s).R3
          = (loadPhase c k1 f1 s1).R3 ^^^ (loadPhase c k2 f2 s2).R3)
      ∧ ((loadPhase c (fun _ => 0) 0 s).R1 = 0 ∧ (loadPhase c (fun _ => 0) 0 s).R2 = 0
        ∧ (loadPhase c (fun _ => 0) 0 s).R3 = 0)
      ∧ (∀ u allP loaded, u.R1 = 0 ∧ u.R2 = 0 ∧ u.R3 = 0 →
          ((clockr c allP loaded u).R1 = 0 ∧ (clockr c allP loaded u).R2 = 0
            ∧ (clockr c allP loaded u).R3 = 0)
          ∧ (getbit c (clockr c allP loaded u)).1 = 0)
      ∧ bytes15 (run c (keysetup c (fun _ => 0) 0 s) A B).AtoBkeystream = List.replicate 15 0
      ∧ bytes15 (run c (keysetup c (fun _ => 0) 0 s) A B).BtoAkeystream
          = List.replicate 15 0 := by
  have hd : c.A5_2 = true → (keysetup c (fun _ => 0) 0 s).delaybit ≤ 1 :=
    keysetup_delaybit_le c _ 0 s
  have hz := keysetup_zero c hc s
  refine ⟨loadPhase_linear c hc k1 k2 f1 f2 s s1 s2, loadPhase_zero c hc s,
    fun u allP loaded hu =>
      ⟨clockr_zero c hc allP loaded u hu, getbit_zero c hc _ (clockr_zero c hc allP loaded u hu)⟩,
    ?_, ?_⟩
  · rw [run_bytes15_AtoB c _ A B hd,
      packed15_congr _ (fun _ => 0) (fun i _ => streamBit_zero c hc _ hz i), packed15_zero]
  · rw [run_bytes15_BtoA c _ A B hd,
      packed15_congr _ (fun _ => 0) (fun i _ => streamBit_zero c hc _ hz (114 + i)),
      packed15_zero]

/-- Witness of C19: the Linear variant with the reference constants, the key
of the Linear `test` XORed with the key of the NonLinear `test`, frames
`0x134` and `0x21`. -/
theorem loading_is_linear_witness :
    linearConfig.A5_2 = false
      ∧ (((loadPhase linearConfig (fun j => ofBytes testKeyA51 j ^^^ ofBytes testKeyA52 j)
              (0x134 ^^^ 0x21) initState).R1
            = (loadPhase linearConfig (ofBytes testKeyA51) 0x134 initState).R1
              ^^^ (loadPhase linearConfig (ofBytes testKeyA52) 0x21 initState).R1
          ∧ (loadPhase linearConfig (fun j => ofBytes testKeyA51 j ^^^ ofBytes testKeyA52 j)
              (0x134 ^^^ 0x21) initState).R2
            = (loadPhase linearConfig (ofBytes testKeyA51) 0x134 initState).R2
              ^^^ (loadPhase linearConfig (ofBytes testKeyA52) 0x21 initState).R2
          ∧ (loadPhase linearConfig (fun j => ofBytes testKeyA51 j ^^^ ofBytes testKeyA52 j)
              (0x134 ^^^ 0x21) initState).R3
            = (loadPhase linearConfig (ofBytes testKeyA51) 0x134 initState).R3
              ^^^ (loadPhase linearConfig (ofBytes testKeyA52) 0x21 initState).R3)
        ∧ ((loadPhase linearConfig (fun _ => 0) 0 initState).R1 = 0
          ∧ (loadPhase linearConfig (fun _ => 0) 0 initState).R2 = 0
          ∧ (loadPhase linearConfig (fun _ => 0) 0 initState).R3 = 0)
        ∧ (∀ u allP loaded, u.R1 = 0 ∧ u.R2 = 0 ∧ u.R3 = 0 →
            ((clockr linearConfig allP loaded u).R1 = 0
              ∧ (clockr linearConfig allP loaded u).R2 = 0
              ∧ (clockr linearConfig allP loaded u).R3 = 0)
            ∧ (getbit linearConfig (clockr linearConfig allP loaded u)).1 = 0)
        ∧ bytes15 (run linearConfig (keysetup linearConfig (fun _ => 0) 0 initState)
            (fun _ => 255) (fun _ => 255)).AtoBkeystream = List.replicate 15 0
        ∧ bytes15 (run linearConfig (keysetup linearConfig (fun _ => 0) 0 initState)
            (fun _ => 255) (fun _ => 255)).BtoAkeystream = List.replicate 15 0) :=
  ⟨rfl, loading_is_linear linearConfig rfl (ofBytes testKeyA51) (ofBytes testKeyA52) 0x134 0x21
    initState initState initState (fun _ => 255) (fun _ => 255)⟩

end A5
